import Mathlib

/-!
Shallow embedding of the rendering routine `plot_spectrum` from
`src/species/plot/plot_spectrum.py` of the `species` repository.

The embedding follows the Python source statement by statement for the
parts that the verified claims depend on: the argument validation, the
flux-scaling (exponent) computation, the per-box drawing loop with its
mutation of the caller-supplied `plot_kwargs`, the synthetic-photometry
style borrowing, and the residual-panel limit computation.  Floats are
modelled as rationals extended with `nan` and the two infinities, Python
dictionaries as insertion-ordered association lists, and exceptions as
an explicit error type threaded through the computation.  Matplotlib is
treated as a passive sink: each call that would draw something is
recorded as a `DrawCall` event.
-/

namespace SpeciesPlot

/-- Model of a Python / NumPy double: a finite rational or one of the
three non-finite values. -/
inductive FP where
  | fin (q : ℚ)
  | pinf
  | ninf
  | nan
deriving DecidableEq, Repr

/-- `np.isnan` on a scalar. -/
def FP.isnan : FP → Bool
  | .nan => true
  | _ => false

/-- `np.isfinite` on a scalar: false for `nan` and both infinities. -/
def FP.isfinite : FP → Bool
  | .fin _ => true
  | _ => false

/-- `np.isinf` on a scalar. -/
def FP.isinf : FP → Bool
  | .pinf => true
  | .ninf => true
  | _ => false

/-- `np.abs` / `abs` on the float model. -/
def FP.abs : FP → FP
  | .fin q => .fin |q|
  | .pinf => .pinf
  | .ninf => .pinf
  | .nan => .nan

/-- IEEE-style multiplication on the float model. -/
def FP.mul : FP → FP → FP
  | .nan, _ => .nan
  | _, .nan => .nan
  | .fin a, .fin b => .fin (a * b)
  | .fin a, .pinf => if 0 < a then .pinf else if a < 0 then .ninf else .nan
  | .fin a, .ninf => if 0 < a then .ninf else if a < 0 then .pinf else .nan
  | .pinf, .fin b => if 0 < b then .pinf else if b < 0 then .ninf else .nan
  | .ninf, .fin b => if 0 < b then .ninf else if b < 0 then .pinf else .nan
  | .pinf, .pinf => .pinf
  | .pinf, .ninf => .ninf
  | .ninf, .pinf => .ninf
  | .ninf, .ninf => .pinf

/-- IEEE-style division on the float model. -/
def FP.div : FP → FP → FP
  | .nan, _ => .nan
  | _, .nan => .nan
  | .fin a, .fin b =>
      if b = 0 then (if 0 < a then .pinf else if a < 0 then .ninf else .nan)
      else .fin (a / b)
  | .pinf, .fin b => if 0 ≤ b then .pinf else .ninf
  | .ninf, .fin b => if 0 ≤ b then .ninf else .pinf
  | .fin _, .pinf => .fin 0
  | .fin _, .ninf => .fin 0
  | .pinf, .pinf => .nan
  | .pinf, .ninf => .nan
  | .ninf, .pinf => .nan
  | .ninf, .ninf => .nan

/-- Strict `>` with IEEE semantics: any comparison with `nan` is false. -/
def FP.gt : FP → FP → Bool
  | .nan, _ => false
  | _, .nan => false
  | .fin a, .fin b => b < a
  | .pinf, .pinf => false
  | .pinf, _ => true
  | .ninf, _ => false
  | .fin _, .pinf => false
  | .fin _, .ninf => true

/-- Python `x == 0.0` on the float model (`nan` and infinities compare false). -/
def FP.eqZero : FP → Bool
  | .fin q => q == 0
  | _ => false

/-- Comparison key used by `np.argsort`: `nan` sorts last. -/
def FP.sortLe : FP → FP → Bool
  | _, .nan => true
  | .nan, _ => false
  | .ninf, _ => true
  | _, .ninf => false
  | .fin a, .fin b => a ≤ b
  | .fin _, .pinf => true
  | .pinf, .fin _ => false
  | .pinf, .pinf => true

/-- Python exceptions that the modelled code can raise. -/
inductive PyErr where
  | valueError
  | indexError
  | typeError
  | overflowError
  | nameError
  | attributeError
deriving DecidableEq, Repr

/-- A scalar value inside a keyword-argument dictionary. -/
inductive SVal where
  | str (s : String)
  | num (q : ℚ)
  | pynone
  | pytrue
deriving DecidableEq, Repr

/-- A value of a `plot_kwargs` entry: a scalar, a nested style
dictionary, or a list of style dictionaries (used for filters with
repeated measurements).  Dictionaries are insertion-ordered association
lists, like Python dicts. -/
inductive KVal where
  | s (v : SVal)
  | d (m : List (String × KVal))
  | l (ls : List (List (String × KVal)))

/-- A Python dictionary with string keys. -/
abbrev KDict := List (String × KVal)

/-- Python `m[k]` as an optional lookup (first match). -/
def dfind (m : KDict) (k : String) : Option KVal :=
  (m.find? (fun p => p.1 == k)).map (fun p => p.2)

/-- Python `k in m`. -/
def dhas (m : KDict) (k : String) : Bool :=
  m.any (fun p => p.1 == k)

/-- Python `del m[k]` (no-op when the key is absent; the source only
deletes keys it has checked for). -/
def derase (m : KDict) (k : String) : KDict :=
  m.filter (fun p => p.1 != k)

/-- Python `m[k] = v`: replace in place when present, append otherwise. -/
def dset (m : KDict) (k : String) (v : KVal) : KDict :=
  if dhas m k then m.map (fun p => if p.1 == k then (p.1, v) else p)
  else m ++ [(k, v)]

/-- Python `k in v` for a kwargs value: key lookup on a dictionary,
elementwise comparison (always false for string keys against style
dictionaries) on a list, false on scalars. -/
def KVal.hasKeyPy : KVal → String → Bool
  | .d m, k => dhas m k
  | _, _ => false

/-- Python `v[k] = x` for a kwargs value: only dictionaries support
string-key assignment; anything else raises `TypeError`. -/
def KVal.setKeyPy : KVal → String → KVal → Except PyErr KVal
  | .d m, k, x => .ok (.d (dset m k x))
  | _, _, _ => .error .typeError

/-- Python `v.copy()` on a kwargs value expected to be a dictionary:
scalars have no `copy` attribute (`AttributeError`); a list would copy
but the call sites that use this immediately expand the result with
`**`, so a list is reported as the `TypeError` that expansion raises. -/
def KVal.asDictCopy : KVal → Except PyErr KDict
  | .d m => .ok m
  | .l _ => .error .typeError
  | .s _ => .error .attributeError

/-- Expanding `f(named..., **user)`: a duplicate keyword raises
`TypeError`, otherwise the explicitly named style pairs precede the
user-supplied ones. -/
def mergeKw (conflictKeys : List String) (explicitPairs : KDict) (user : KDict) :
    Except PyErr KDict :=
  if conflictKeys.any (fun k => dhas user k) then .error .typeError
  else .ok (explicitPairs ++ user)

/-- Stable insertion (after all elements that compare `le` to the new
element), giving a stable sort overall. -/
def insertLe {α : Type} (le : α → α → Bool) (x : α) : List α → List α
  | [] => [x]
  | y :: ys => if le y x then y :: insertLe le x ys else x :: y :: ys

/-- Stable sort by a boolean comparison, modelling `np.argsort` applied
to a key list (with a stable tie-break). -/
def sortLeList {α : Type} (le : α → α → Bool) (xs : List α) : List α :=
  xs.foldl (fun acc x => insertLe le x acc) []

/-- Photometry entry of an `ObjectBox`: a `(flux, error)` pair, or a
2×N array of repeated measurements of the same filter. -/
inductive PhotVal where
  | single (f e : FP)
  | multi (cols : List (FP × FP))
deriving Repr

/-- The `ObjectBox` fields used by the plotting routine: the named
spectra (rows of wavelength, flux, error) and the named photometry. -/
structure ObjectData where
  spectrum : Option (List (String × List (FP × FP × FP)))
  flux : Option (List (String × PhotVal))
deriving Repr

/-- A renderable box.  `spec` covers both `SpectrumBox` and `ModelBox`
(with `isModel` distinguishing them), `obj` is an `ObjectBox` and
`synphot` a `SynphotBox`. -/
inductive Box where
  | spec (wavelength flux : List FP) (isModel : Bool) (modelName : String)
  | obj (o : ObjectData)
  | synphot (flux : List (String × FP))
deriving Repr

/-- Photometric residual entry: 1-D `(wavelength, z-score)` or a 2×N
array for a filter with repeated measurements. -/
inductive ResPhot where
  | one (w z : FP)
  | two (cols : List (FP × FP))
deriving Repr

/-- The `ResidualsBox` fields used by the plotting routine. -/
structure ResidualsBox where
  photometry : Option (List (String × ResPhot))
  spectrum : Option (List (String × List (FP × FP)))
deriving Repr

/-- External collaborators: the filter lookup service and the model
label formatter. -/
structure Env where
  meanWavel : String → ℚ
  filterFwhm : String → ℚ
  modelLabel : String → Option String

/-- The arguments of `plot_spectrum` that the modelled code reads. -/
structure Args where
  boxes : List Box
  filters : Option (List String)
  residuals : Option ResidualsBox
  plot_kwargs : Option (List (Option KDict))
  ylim : Option (ℚ × ℚ)
  ylim_res : Option (ℚ × ℚ)
  scale : Option (String × String)
  quantity : String

/-- One recorded drawing primitive (a matplotlib call that puts ink on
the figure).  Masked samples are `none`. -/
inductive DrawCall where
  | specLine (xs : List FP) (ys : List (Option FP)) (label : Option KVal) (kw : KDict)
  | objSpecErr (xs ys yerr : List (Option FP)) (kw : KDict)
  | objSpecLine (xs ys : List (Option FP)) (kw : KDict)
  | photPoint (x : ℚ) (y : FP) (xerr : ℚ) (yerr : Option FP) (kw : KDict)
  | filterProfile (name : String)
  | resSeries (xs ys : List FP) (kw : KDict)

/-- The y-values of a draw call, when it draws a flux series. -/
def DrawCall.ysOf : DrawCall → Option (List (Option FP))
  | .specLine _ ys _ _ => some ys
  | .objSpecErr _ ys _ _ => some ys
  | .objSpecLine _ ys _ => some ys
  | _ => none

/-- Output of the scale-normalisation block (source lines 454-519):
the common flux scaling, the shared decimal exponent, the y-axis label,
the effective (already divided) y-limits and whether the zero reference
line is drawn in the main panel. -/
structure ScaleOut where
  scaling : ℚ
  exponent : Option ℤ
  ylabel : String
  ylimEff : Option (ℚ × ℚ)
  zeroLine : Bool
deriving DecidableEq, Repr

/-- Flux-density y-label without exponent. -/
def fluxDensityYlabelNoExp : String :=
  "$F_\\lambda$ (W m$^\x7b-2\x7d$ μm$^\x7b-1\x7d$)"

/-- Flux-density y-label embedding the shared exponent. -/
def fluxDensityYlabelExp (e : ℤ) : String :=
  "$F_\\lambda$ (10$^\x7b" ++ toString e ++ "\x7d$ W m$^\x7b-2\x7d$ μm$^\x7b-1\x7d$)"

/-- Wavelength-weighted flux y-label without exponent. -/
def fluxYlabelNoExp : String :=
  "$\\lambda$$F_\\lambda$ (W m$^\x7b-2\x7d$)"

/-- Wavelength-weighted flux y-label embedding the shared exponent. -/
def fluxYlabelExp (e : ℤ) : String :=
  "$\\lambda$$F_\\lambda$ (10$^\x7b" ++ toString e ++ "\x7d$ W m$^\x7b-2\x7d$)"

/-- The scale-normalisation block, source lines 454-519.  In magnitude
mode the scaling is fixed at one; otherwise, with an explicit `ylim`
and a linear y-scale, the exponent is `floor(log10(ylim[1]))` (Python
`math.log10` raises on a non-positive argument, reported here as
`valueError`) and the scaling `10 ** exponent`; with a logarithmic
scale or no `ylim` the scaling is one and no exponent is shown.  An
unrecognised quantity leaves `ylabel` unbound, which the subsequent
`set_ylabel` call turns into a `NameError`. -/
def scaleNormalize (quantity : String) (scaleY : String) (ylim : Option (ℚ × ℚ)) :
    Except PyErr ScaleOut :=
  if quantity == "magnitude" then
    .ok ⟨1, none, "Contrast (mag)", ylim, false⟩
  else
    match ylim with
    | some (a, b) =>
        let expScale : Except PyErr (Option ℤ × ℚ) :=
          if scaleY == "linear" then
            if 0 < b then .ok (some (Int.log 10 b), (10 : ℚ) ^ Int.log 10 b)
            else .error .valueError
          else .ok (none, 1)
        match expScale with
        | .error e => .error e
        | .ok (expo, scaling) =>
            let ylabelE : Except PyErr String :=
              if quantity == "flux density" then
                .ok (match expo with
                  | none => fluxDensityYlabelNoExp
                  | some e => fluxDensityYlabelExp e)
              else if quantity == "flux" then
                .ok (match expo with
                  | none => fluxYlabelNoExp
                  | some e => fluxYlabelExp e)
              else .error .nameError
            match ylabelE with
            | .error e => .error e
            | .ok yl =>
                .ok ⟨scaling, expo, yl, some (a / scaling, b / scaling), decide (a < 0)⟩
    | none =>
        let yl :=
          if quantity == "flux density" then fluxDensityYlabelNoExp
          else if quantity == "flux" then fluxYlabelNoExp
          else ""
        .ok ⟨1, none, yl, none, false⟩

/-- Renderer state threaded through the drawing loop: the (mutated)
`plot_kwargs` list, the draw calls issued so far, and the number of
auto-coloured draws issued so far (matplotlib's colour cycle, recorded
as the opaque colours `C0`, `C1`, ...). -/
structure RState where
  kwargs : List (Option KDict)
  draws : List DrawCall
  colorIdx : Nat

/-- `np.ma.array(data, mask=np.isnan(data))` applied to one sample:
only `nan` samples are masked. -/
def maskNan (v : FP) : Option FP :=
  if v.isnan then none else some v

/-- `flux_scaling * value / scaling`, the expression used for every
flux value sent to a draw call. -/
def plotVal (fs : FP) (scaling : ℚ) (v : FP) : FP :=
  (fs.mul v).div (FP.fin scaling)

/-- Per-sample plotted values of a `SpectrumBox`/`ModelBox`: the flux is
masked at `nan` samples and each unmasked sample is multiplied by the
flux scaling (the wavelength when `quantity == "flux"`) and divided by
the shared scaling. -/
def specYs (wavel flux : List FP) (useWavel : Bool) (scaling : ℚ) : List (Option FP) :=
  (wavel.zip flux).map fun wv =>
    (maskNan wv.2).map fun v => plotVal (if useWavel then wv.1 else FP.fin 1) scaling v

/-- The n-th colour of matplotlib's default colour cycle, opaque. -/
def autoColor (n : Nat) : String := "C" ++ toString n

/-- Legend label of a `SpectrumBox`/`ModelBox` before overrides: the
external model-label formatter for a model, nothing otherwise. -/
def specBoxLabel (env : Env) (isModel : Bool) (modelName : String) : Option KVal :=
  if isModel then (env.modelLabel modelName).map (fun s => KVal.s (SVal.str s)) else none

/-- Python `**v` expansion: only a dictionary is accepted. -/
def KVal.asKwargs : KVal → Except PyErr KDict
  | .d m => .ok m
  | _ => .error .typeError

/-- The `SpectrumBox`/`ModelBox` branch of the drawing loop, source
lines 563-620 (the 1-D wavelength case).  The head access
`wavelength[0]` (source line 567, the element-type test) raises
`IndexError` on an empty wavelength array before anything is drawn;
otherwise the caller-supplied style dictionary is copied before the
`label` key is removed and a default `zorder` inserted, so this branch
never mutates `plot_kwargs`. -/
def runSpecBox (env : Env) (quantity : String) (scaling : ℚ)
    (wavel flux : List FP) (isModel : Bool) (modelName : String)
    (kj : Option KDict) : Except PyErr DrawCall :=
  if wavel.isEmpty then .error .indexError
  else
    let label0 := specBoxLabel env isModel modelName
    let useW := quantity == "flux"
    let ys := specYs wavel flux useW scaling
    let defaultKw : KDict := [("lw", .s (.num (1/2))), ("zorder", .s (.num 2))]
    match kj with
    | some m =>
        if m.isEmpty then .ok (.specLine wavel ys label0 defaultKw)
        else
          let label := if dhas m "label" then
              (match dfind m "label" with
               | some (KVal.s SVal.pynone) => none
               | v => v)
            else label0
          let copy := if dhas m "label" then derase m "label" else m
          let copy := if dhas copy "zorder" then copy else dset copy "zorder" (.s (.num 2))
          .ok (.specLine wavel ys label copy)
    | none => .ok (.specLine wavel ys label0 defaultKw)

/-- Row value of a masked object-spectrum column: masked cells stay
masked through the arithmetic. -/
def rowVal (useW : Bool) (scaling : ℚ) (w? f? : Option FP) : Option FP :=
  match (if useW then w? else some (FP.fin 1)), f? with
  | some fs, some f => some (plotVal fs scaling f)
  | _, _ => none

/-- Python `plot_kwargs[idx][item] = v` when slot `idx` holds a dict. -/
def setKwItem (idx : Nat) (item : String) (v : KVal) (st : RState) : RState :=
  match st.kwargs.get? idx with
  | some (some m) => { st with kwargs := st.kwargs.set idx (some (dset m item v)) }
  | _ => st

/-- One named spectrum of an `ObjectBox`, source lines 811-859. -/
def objSpecKey (quantity : String) (scaling : ℚ) (j : Nat) (key : String)
    (rows : List (FP × FP × FP)) (st : RState) : RState × Option PyErr :=
  let useW := quantity == "flux"
  let wcol := rows.map (fun r => maskNan r.1)
  let fcol := rows.map (fun r => maskNan r.2.1)
  let ecol := rows.map (fun r => maskNan r.2.2)
  let ys := (wcol.zip fcol).map (fun p => rowVal useW scaling p.1 p.2)
  let yerrs := (wcol.zip ecol).map (fun p => rowVal useW scaling p.1 p.2)
  match st.kwargs.get? j with
  | none => (st, some .indexError)
  | some kj =>
    let truthy := match kj with | some m => !m.isEmpty | none => false
    let keyIn := match kj with | some m => dhas m key | none => false
    if !truthy || !keyIn then
      let color := autoColor st.colorIdx
      let drawKw : KDict := [("ms", .s (.num 2)), ("marker", .s (.str "s")),
        ("zorder", .s (.num (5/2))), ("ls", .s (.str "none")), ("color", .s (.str color))]
      let captured : KVal := .d [("marker", .s (.str "s")), ("ms", .s (.num 2)),
        ("ls", .s (.str "none")), ("color", .s (.str color))]
      let slot : KDict := kj.getD []
      ({ st with kwargs := st.kwargs.set j (some (dset slot key captured)),
                 draws := st.draws ++ [.objSpecErr wcol ys yerrs drawKw],
                 colorIdx := st.colorIdx + 1 }, none)
    else
      match dfind (kj.getD []) key with
      | none => (st, some .indexError)
      | some kv =>
        if !kv.hasKeyPy "marker" then
          match kv.asKwargs with
          | .error e => (st, some e)
          | .ok m => ({ st with draws := st.draws ++ [.objSpecLine wcol ys m] }, none)
        else
          match kv with
          | .d m0 =>
            let m1 := if dhas m0 "zorder" then m0 else dset m0 "zorder" (.s (.num (5/2)))
            let st1 := setKwItem j key (.d m1) st
            match mergeKw ["yerr"] [] m1 with
            | .error e => (st1, some e)
            | .ok kw => ({ st1 with draws := st1.draws ++ [.objSpecErr wcol ys yerrs kw] }, none)
          | _ => (st, some .typeError)

/-- First wavelength sample of a stored spectrum
(`box_item.spectrum[item][0][0, 0]`); an empty array raises. -/
def firstWavel : List (FP × FP × FP) → Except PyErr FP
  | [] => .error .indexError
  | r :: _ => .ok r.1

/-- Pair each object spectrum with its first wavelength sample, in
order, propagating the first failure. -/
def objSpecKeys : List (String × List (FP × FP × FP)) →
    Except PyErr (List (FP × String × List (FP × FP × FP)))
  | [] => .ok []
  | it :: rest =>
    match firstWavel it.2 with
    | .error e => .error e
    | .ok w =>
      match objSpecKeys rest with
      | .error e => .error e
      | .ok tl => .ok ((w, it.1, it.2) :: tl)

/-- Drawing loop over the sorted object spectra. -/
def objSpecLoop (quantity : String) (scaling : ℚ) (j : Nat) :
    List (FP × String × List (FP × FP × FP)) → RState → RState × Option PyErr
  | [], st => (st, none)
  | k :: rest, st =>
    match objSpecKey quantity scaling j k.2.1 k.2.2 st with
    | (st1, some e) => (st1, some e)
    | (st1, none) => objSpecLoop quantity scaling j rest st1

/-- The object-spectrum part of the `ObjectBox` branch, source lines
797-859: spectra are sorted by the wavelength of their first sample
and drawn in that order. -/
def objSpecPart (quantity : String) (scaling : ℚ) (j : Nat)
    (specs : List (String × List (FP × FP × FP))) (st : RState) : RState × Option PyErr :=
  match objSpecKeys specs with
  | .error e => (st, some e)
  | .ok keyed =>
    objSpecLoop quantity scaling j (sortLeList (fun a b => FP.sortLe a.1 b.1) keyed) st

/-- Loop of source lines 934-946: one error bar per repeated
measurement, the i-th drawn with the i-th override dictionary (a
missing element raises `IndexError`; surplus elements are ignored). -/
def objPhotMultiLoop (w fw : ℚ) (fs : FP) (scaling : ℚ) (j : Nat) (item : String) :
    List (FP × FP) → List KDict → Nat → RState → RState × Option PyErr
  | [], _, _, st => (st, none)
  | c :: rest, ks, i, st =>
    match ks.get? i with
    | none => (st, some .indexError)
    | some di =>
      let di1 := if dhas di "zorder" then di else dset di "zorder" (.s (.num 3))
      let ks1 := ks.set i di1
      let st1 := setKwItem j item (.l ks1) st
      match mergeKw ["xerr", "yerr"] [] di1 with
      | .error e => (st1, some e)
      | .ok kw =>
        let draw := DrawCall.photPoint w (plotVal fs scaling c.1) (fw / 2)
          (some (plotVal fs scaling c.2)) kw
        objPhotMultiLoop w fw fs scaling j item rest ks1 (i + 1)
          { st1 with draws := st1.draws ++ [draw] }

/-- One photometry filter of an `ObjectBox`, source lines 876-979.
Without an override (or with a falsy `plot_kwargs[j]`) a default black
square is drawn and its style captured back into `plot_kwargs[j]`.
With an override, a 2×N measurement array demands a list of override
dictionaries (`ValueError` otherwise), a stored error of exactly zero
is drawn as an upper limit, and missing `zorder` keys are inserted into
the caller's dictionaries.  (The degenerate 0-measurement 2×N array is
not modelled; the capture then still records a black square.) -/
def objPhotItem (env : Env) (quantity : String) (scaling : ℚ) (j : Nat)
    (item : String) (pv : PhotVal) (st : RState) : RState × Option PyErr :=
  let w := env.meanWavel item
  let fw := env.filterFwhm item
  let fs := if quantity == "flux" then FP.fin w else FP.fin 1
  match st.kwargs.get? j with
  | none => (st, some .indexError)
  | some kj =>
    let truthy := match kj with | some m => !m.isEmpty | none => false
    let keyIn := match kj with | some m => dhas m item | none => false
    if !truthy || !keyIn then
      let slot : KDict := kj.getD []
      let scaleTmp := fs.div (FP.fin scaling)
      let baseKw : KDict := [("marker", .s (.str "s")), ("ms", .s (.num 5)),
        ("zorder", .s (.num 3)), ("color", .s (.str "black"))]
      let draws := match pv with
        | .multi cols => cols.map (fun c =>
            DrawCall.photPoint w (scaleTmp.mul c.1) (fw / 2) (some (scaleTmp.mul c.2)) baseKw)
        | .single f e =>
            [DrawCall.photPoint w (scaleTmp.mul f) (fw / 2) (some (scaleTmp.mul e)) baseKw]
      let captured : KVal := .d [("marker", .s (.str "s")), ("ms", .s (.num 5)),
        ("color", .s (.str "black"))]
      ({ st with kwargs := st.kwargs.set j (some (dset slot item captured)),
                 draws := st.draws ++ draws }, none)
    else
      match dfind (kj.getD []) item with
      | none => (st, some .indexError)
      | some kv =>
        match pv with
        | .multi cols =>
          match kv with
          | .l ks => objPhotMultiLoop w fw fs scaling j item cols ks 0 st
          | _ => (st, some .valueError)
        | .single f e =>
          if e.eqZero then
            match (if kv.hasKeyPy "zorder" then .ok kv
                   else kv.setKeyPy "zorder" (.s (.num 3))) with
            | .error er => (st, some er)
            | .ok kv1 =>
              let st1 := setKwItem j item kv1 st
              match kv1.asKwargs with
              | .error er => (st1, some er)
              | .ok m =>
                match mergeKw ["xerr", "yerr", "uplims", "capsize", "capthick"]
                    [("uplims", .s .pytrue), ("capsize", .s (.num 2)),
                     ("capthick", .s (.num 0))] m with
                | .error er => (st1, some er)
                | .ok kw =>
                  let yerr := (((FP.fin (1/2)).mul fs).mul f).div (FP.fin scaling)
                  ({ st1 with draws := st1.draws ++
                      [.photPoint w (plotVal fs scaling f) (fw / 2) (some yerr) kw] }, none)
          else
            match (if kv.hasKeyPy "zorder" then .ok kv
                   else kv.setKeyPy "zorder" (.s (.num 3))) with
            | .error er => (st, some er)
            | .ok kv1 =>
              let st1 := setKwItem j item kv1 st
              match kv1.asKwargs with
              | .error er => (st1, some er)
              | .ok m =>
                match mergeKw ["xerr", "yerr"] [] m with
                | .error er => (st1, some er)
                | .ok kw =>
                  ({ st1 with draws := st1.draws ++
                      [.photPoint w (plotVal fs scaling f) (fw / 2)
                        (some (plotVal fs scaling e)) kw] }, none)

/-- Drawing loop over the sorted photometry filters. -/
def objPhotLoop (env : Env) (quantity : String) (scaling : ℚ) (j : Nat) :
    List (String × PhotVal) → RState → RState × Option PyErr
  | [], st => (st, none)
  | it :: rest, st =>
    match objPhotItem env quantity scaling j it.1 it.2 st with
    | (st1, some e) => (st1, some e)
    | (st1, none) => objPhotLoop env quantity scaling j rest st1

/-- The photometry part of the `ObjectBox` branch, source lines
861-979: filters are sorted by mean wavelength and drawn in order. -/
def objPhotPart (env : Env) (quantity : String) (scaling : ℚ) (j : Nat)
    (items : List (String × PhotVal)) (st : RState) : RState × Option PyErr :=
  objPhotLoop env quantity scaling j
    (sortLeList (fun a b => decide (env.meanWavel a.1 ≤ env.meanWavel b.1)) items) st

/-- The full `ObjectBox` branch: spectra first, then photometry. -/
def runObjBox (env : Env) (quantity : String) (scaling : ℚ) (j : Nat)
    (o : ObjectData) (st : RState) : RState × Option PyErr :=
  let step1 := match o.spectrum with
    | none => (st, none)
    | some specs => objSpecPart quantity scaling j specs st
  match step1 with
  | (st1, some e) => (st1, some e)
  | (st1, none) =>
    match o.flux with
    | none => (st1, none)
    | some items => objPhotPart env quantity scaling j items st1

/-- Index of the first `ObjectBox` in the box list (source lines
984-987 and 1081-1084). -/
def findObjIdx : List Box → Option Nat
  | [] => none
  | Box.obj _ :: _ => some 0
  | _ :: rest => (findObjIdx rest).map (· + 1)

/-- Default style of a synthetic-photometry point without any usable
override, source lines 1016-1026. -/
def synphotDefaultKw : KDict :=
  [("alpha", .s (.num (7/10))), ("marker", .s (.str "s")), ("ms", .s (.num 5)),
   ("zorder", .s (.num 4)), ("mfc", .s (.str "white"))]

/-- Borrow the companion `ObjectBox` style for a synthetic-photometry
point, source lines 1028-1069.  For a list-valued style the first
element is copied and only `label` is removed before `mfc="white"` is
passed explicitly (a duplicated `mfc` keyword then raises `TypeError`);
for a dict-valued style both `label` and `mfc` are removed first. -/
def synphotBorrow (w fw : ℚ) (fs : FP) (scaling : ℚ) (fluxVal : FP) (okv : KVal) :
    Except PyErr DrawCall :=
  match okv with
  | .l ks =>
      match ks.head? with
      | none => .error .indexError
      | some k0 =>
          let copy := if dhas k0 "label" then derase k0 "label" else k0
          let copy := if dhas copy "zorder" then copy else dset copy "zorder" (.s (.num 4))
          match mergeKw ["xerr", "yerr", "mfc"] [("mfc", .s (.str "white"))] copy with
          | .error e => .error e
          | .ok kw => .ok (.photPoint w (plotVal fs scaling fluxVal) (fw / 2) none kw)
  | .d m =>
      let copy := if dhas m "label" then derase m "label" else m
      let copy := if dhas copy "mfc" then derase copy "mfc" else copy
      let copy := if dhas copy "zorder" then copy else dset copy "zorder" (.s (.num 4))
      match mergeKw ["xerr", "yerr", "mfc"] [("mfc", .s (.str "white"))] copy with
      | .error e => .error e
      | .ok kw => .ok (.photPoint w (plotVal fs scaling fluxVal) (fw / 2) none kw)
  | .s _ => .error .attributeError

/-- One filter of a `SynphotBox`, source lines 989-1069. -/
def synphotItem (env : Env) (quantity : String) (scaling : ℚ) (objIdx : Option Nat)
    (j : Nat) (item : String) (fluxVal : FP) (st : RState) : RState × Option PyErr :=
  let w := env.meanWavel item
  let fw := env.filterFwhm item
  let fs := if quantity == "flux" then FP.fin w else FP.fin 1
  match st.kwargs.get? j with
  | none => (st, some .indexError)
  | some kj =>
    let ownHit := match kj with | some m => dhas m item | none => false
    if ownHit then
      match dfind (kj.getD []) item with
      | none => (st, some .indexError)
      | some kv =>
        match kv.asDictCopy with
        | .error e => (st, some e)
        | .ok copy =>
          let copy := if dhas copy "zorder" then copy else dset copy "zorder" (.s (.num 4))
          match mergeKw ["xerr", "yerr"] [] copy with
          | .error e => (st, some e)
          | .ok kw =>
            ({ st with draws := st.draws ++
                [.photPoint w (plotVal fs scaling fluxVal) (fw / 2) none kw] }, none)
    else
      let defaultDraw :=
        DrawCall.photPoint w (plotVal fs scaling fluxVal) (fw / 2) none synphotDefaultKw
      match objIdx with
      | none => ({ st with draws := st.draws ++ [defaultDraw] }, none)
      | some oi =>
        match st.kwargs.get? oi with
        | none => (st, some .indexError)
        | some ko =>
          let truthy := match ko with | some m => !m.isEmpty | none => false
          let hit := match ko with | some m => dhas m item | none => false
          if !truthy || !hit then
            ({ st with draws := st.draws ++ [defaultDraw] }, none)
          else
            match dfind (ko.getD []) item with
            | none => (st, some .indexError)
            | some okv =>
              match synphotBorrow w fw fs scaling fluxVal okv with
              | .error e => (st, some e)
              | .ok draw => ({ st with draws := st.draws ++ [draw] }, none)

/-- Loop over the filters of a `SynphotBox`, in stored order. -/
def synphotLoop (env : Env) (quantity : String) (scaling : ℚ) (objIdx : Option Nat)
    (j : Nat) : List (String × FP) → RState → RState × Option PyErr
  | [], st => (st, none)
  | it :: rest, st =>
    match synphotItem env quantity scaling objIdx j it.1 it.2 st with
    | (st1, some e) => (st1, some e)
    | (st1, none) => synphotLoop env quantity scaling objIdx j rest st1

/-- Dispatch one box of the drawing loop. -/
def runBox (env : Env) (quantity : String) (scaling : ℚ) (allBoxes : List Box)
    (j : Nat) (b : Box) (st : RState) : RState × Option PyErr :=
  match b with
  | .spec w f im mn =>
    match st.kwargs.get? j with
    | none => (st, some .indexError)
    | some kj =>
      match runSpecBox env quantity scaling w f im mn kj with
      | .error e => (st, some e)
      | .ok d => ({ st with draws := st.draws ++ [d] }, none)
  | .obj o => runObjBox env quantity scaling j o st
  | .synphot fl => synphotLoop env quantity scaling (findObjIdx allBoxes) j fl st

/-- The drawing loop over the boxes, source lines 557-1069.  Before
each box is processed a `None` entry is appended to `plot_kwargs`
(source lines 560-561; the guard `j < len(boxes)` is always true), so
the caller-supplied list grows by one entry per box. -/
def runBoxes (env : Env) (quantity : String) (scaling : ℚ) (allBoxes : List Box) :
    List Box → Nat → RState → RState × Option PyErr
  | [], _, st => (st, none)
  | b :: rest, j, st =>
    let st1 := { st with kwargs := st.kwargs ++ [none] }
    match runBox env quantity scaling allBoxes j b st1 with
    | (st2, some e) => (st2, some e)
    | (st2, none) => runBoxes env quantity scaling allBoxes rest (j + 1) st2

/-- The residual panel summary: its symmetric limit, whether the dashed
zero line and the dotted ±5 lines are drawn, and the final y-limits. -/
structure ResPanel where
  resLim : ℤ
  zeroLine : Bool
  fiveLines : Bool
  ylimRes : ℚ × ℚ
deriving DecidableEq, Repr

/-- Maximum of a non-empty float list under IEEE `>`. -/
def fpMaxList (x : FP) (xs : List FP) : FP :=
  xs.foldl (fun a b => if FP.gt b a then b else a) x

/-- `np.nanmax(np.abs(vals))`: `nan` entries are ignored, infinities
are not; an all-`nan` input yields `nan`, an empty input raises. -/
def nanmaxAbs (vals : List FP) : Except PyErr FP :=
  match vals with
  | [] => .error .valueError
  | _ =>
    .ok (match (vals.map FP.abs).filter (fun v => !v.isnan) with
      | [] => .nan
      | x :: xs => fpMaxList x xs)

/-- The absolute value of a finite float, nothing otherwise. -/
def finAbsVal : FP → Option ℚ
  | .fin q => some |q|
  | _ => none

/-- `np.max(np.abs(vals[np.isfinite(vals)]))`: the maximum of the
absolute finite entries; an empty selection raises (`np.max` of a
zero-size array). -/
def finiteAbsMax (vals : List FP) : Except PyErr ℚ :=
  match vals.filterMap finAbsVal with
  | [] => .error .valueError
  | x :: xs => .ok (xs.foldl max x)

/-- The residual values stored in a photometric residual entry. -/
def resPhotVals : ResPhot → List FP
  | .one _ z => [z]
  | .two cols => cols.map (fun c => c.2)

/-- `math.ceil` applied to the float model: infinities raise
`OverflowError`, `nan` raises `ValueError`. -/
def ceilPy : FP → Except PyErr ℤ
  | .fin q => .ok ⌈q⌉
  | .pinf => .error .overflowError
  | .ninf => .error .overflowError
  | .nan => .error .valueError

/-- Per-measurement drawing of a 2×N photometric residual entry,
source lines 1118-1138. -/
def resPhotTwoLoop (oi : Nat) (item : String) :
    List (FP × FP) → Nat → RState → RState × Option PyErr
  | [], _, st => (st, none)
  | c :: rest, i, st =>
    match st.kwargs.get? oi with
    | none => (st, some .indexError)
    | some ko =>
      match dfind (ko.getD []) item with
      | none => (st, some .indexError)
      | some kv =>
        match kv with
        | .l ks =>
          match ks.get? i with
          | none => (st, some .indexError)
          | some di =>
            let di1 := if dhas di "zorder" then di else dset di "zorder" (.s (.num 2))
            let st1 := setKwItem oi item (.l (ks.set i di1)) st
            resPhotTwoLoop oi item rest (i + 1)
              { st1 with draws := st1.draws ++ [.resSeries [c.1] [c.2] di1] }
        | _ =>
          match (if kv.hasKeyPy "zorder" then .ok kv
                 else kv.setKeyPy "zorder" (.s (.num 2))) with
          | .error e => (st, some e)
          | .ok kv1 =>
            let st1 := setKwItem oi item kv1 st
            match kv1.asKwargs with
            | .error e => (st1, some e)
            | .ok kw =>
              resPhotTwoLoop oi item rest (i + 1)
                { st1 with draws := st1.draws ++ [.resSeries [c.1] [c.2] kw] }

/-- The drawing part of one photometric residual entry, source lines
1096-1138. -/
def resPhotDraw (oi : Nat) (item : String) (rp : ResPhot) (st : RState) :
    RState × Option PyErr :=
  match st.kwargs.get? oi with
  | none => (st, some .indexError)
  | some ko =>
    let truthy := match ko with | some m => !m.isEmpty | none => false
    let hit := match ko with | some m => dhas m item | none => false
    if !truthy || !hit then
      let xs := match rp with
        | .one w _ => [w]
        | .two cols => cols.map (fun c => c.1)
      let zs := resPhotVals rp
      ({ st with draws := st.draws ++ [.resSeries xs zs
          [("marker", .s (.str "s")), ("ms", .s (.num 5)),
           ("linestyle", .s (.str "none")), ("zorder", .s (.num 2))]] }, none)
    else
      match dfind (ko.getD []) item with
      | none => (st, some .indexError)
      | some kv =>
        match rp with
        | .one w z =>
          match (if kv.hasKeyPy "zorder" then .ok kv
                 else kv.setKeyPy "zorder" (.s (.num 2))) with
          | .error e => (st, some e)
          | .ok kv1 =>
            let st1 := setKwItem oi item kv1 st
            match kv1.asKwargs with
            | .error e => (st1, some e)
            | .ok kw => ({ st1 with draws := st1.draws ++ [.resSeries [w] [z] kw] }, none)
        | .two cols => resPhotTwoLoop oi item cols 0 st

/-- One photometric residual entry, source lines 1096-1145: draw it,
then fold its finite absolute maximum into the running maximum. -/
def resPhotItem (oi : Nat) (item : String) (rp : ResPhot) (st : RState) (resMax : FP) :
    RState × FP × Option PyErr :=
  match resPhotDraw oi item rp st with
  | (st1, some e) => (st1, resMax, some e)
  | (st1, none) =>
    match finiteAbsMax (resPhotVals rp) with
    | .error e => (st1, resMax, some e)
    | .ok m => (st1, (if FP.gt (.fin m) resMax then .fin m else resMax), none)

/-- Fold over the photometric residual entries. -/
def resPhotFold (oi : Nat) : List (String × ResPhot) → RState → FP →
    RState × FP × Option PyErr
  | [], st, resMax => (st, resMax, none)
  | it :: rest, st, resMax =>
    match resPhotItem oi it.1 it.2 st resMax with
    | (st1, m1, some e) => (st1, m1, some e)
    | (st1, m1, none) => resPhotFold oi rest st1 m1

/-- The drawing part of one spectral residual entry, source lines
1147-1162. -/
def resSpecDraw (oi : Nat) (key : String) (rows : List (FP × FP)) (st : RState) :
    RState × Option PyErr :=
  match st.kwargs.get? oi with
  | none => (st, some .indexError)
  | some ko =>
    let truthy := match ko with | some m => !m.isEmpty | none => false
    let hit := match ko with | some m => dhas m key | none => false
    if !truthy || !hit then
      ({ st with draws := st.draws ++ [.resSeries (rows.map (fun r => r.1))
          (rows.map (fun r => r.2))
          [("marker", .s (.str "o")), ("ms", .s (.num 2)),
           ("ls", .s (.str "none")), ("zorder", .s (.num 1))]] }, none)
    else
      match dfind (ko.getD []) key with
      | none => (st, some .indexError)
      | some kv =>
        match (if kv.hasKeyPy "zorder" then .ok kv
               else kv.setKeyPy "zorder" (.s (.num 1))) with
        | .error e => (st, some e)
        | .ok kv1 =>
          let st1 := setKwItem oi key kv1 st
          match kv1.asKwargs with
          | .error e => (st1, some e)
          | .ok kw =>
            ({ st1 with draws := st1.draws ++ [.resSeries (rows.map (fun r => r.1))
                (rows.map (fun r => r.2)) kw] }, none)

/-- One spectral residual entry, source lines 1147-1167: draw it, then
fold `np.nanmax(np.abs(values))` into the running maximum (note:
unlike the photometric case, infinities are not filtered out here). -/
def resSpecItem (oi : Nat) (key : String) (rows : List (FP × FP)) (st : RState)
    (resMax : FP) : RState × FP × Option PyErr :=
  match resSpecDraw oi key rows st with
  | (st1, some e) => (st1, resMax, some e)
  | (st1, none) =>
    match nanmaxAbs (rows.map (fun r => r.2)) with
    | .error e => (st1, resMax, some e)
    | .ok maxTmp => (st1, (if FP.gt maxTmp resMax then maxTmp else resMax), none)

/-- Fold over the spectral residual entries. -/
def resSpecFold (oi : Nat) : List (String × List (FP × FP)) → RState → FP →
    RState × FP × Option PyErr
  | [], st, resMax => (st, resMax, none)
  | it :: rest, st, resMax =>
    match resSpecItem oi it.1 it.2 st resMax with
    | (st1, m1, some e) => (st1, m1, some e)
    | (st1, m1, none) => resSpecFold oi rest st1 m1

/-- The residual section, source lines 1078-1186.  Raises `ValueError`
when no `ObjectBox` is present; otherwise draws the residual points,
computes `res_lim = ceil(1.1 * res_max)` (reset to 5 when above 10),
always draws the dashed zero line, draws dotted ±5 lines exactly when
the final limit exceeds 5 or an explicit `ylim_res` spans beyond ±5,
and sets the symmetric limits unless `ylim_res` is given. -/
def runResiduals (boxes : List Box) (ylimRes : Option (ℚ × ℚ)) (r : ResidualsBox)
    (st : RState) : RState × Option ResPanel × Option PyErr :=
  match findObjIdx boxes with
  | none => (st, none, some .valueError)
  | some oi =>
    match resPhotFold oi (r.photometry.getD []) st (FP.fin 0) with
    | (st1, _, some e) => (st1, none, some e)
    | (st1, m1, none) =>
      match resSpecFold oi (r.spectrum.getD []) st1 m1 with
      | (st2, _, some e) => (st2, none, some e)
      | (st2, m2, none) =>
        match ceilPy ((FP.fin (11/10)).mul m2) with
        | .error e => (st2, none, some e)
        | .ok c0 =>
          let resLim : ℤ := if 10 < c0 then 5 else c0
          let fiveLines := decide (5 < resLim) ||
            (match ylimRes with
             | some (a, b) => decide (a < -5) && decide (5 < b)
             | none => false)
          let ylimEffRes : ℚ × ℚ := match ylimRes with
            | none => ((-resLim : ℚ), (resLim : ℚ))
            | some p => p
          (st2, some ⟨resLim, true, fiveLines, ylimEffRes⟩, none)

/-- The observable outcome of a `plot_spectrum` call: the error (if
any) that aborted it, the draw calls issued before that point, the
final state of the `plot_kwargs` list, and the scale-normaliser and
residual-panel outputs. -/
structure RenderResult where
  error : Option PyErr
  draws : List DrawCall
  kwargsFinal : List (Option KDict)
  scaleOut : Option ScaleOut
  resPanel : Option ResPanel

/-- Everything after the `plot_kwargs` length check: scale
normalisation, the drawing loop, the filter profiles, the residual
section. -/
def plotSpectrumBody (env : Env) (a : Args) (kw0 : List (Option KDict)) : RenderResult :=
  let scaleXY := a.scale.getD ("linear", "linear")
  match scaleNormalize a.quantity scaleXY.2 a.ylim with
  | .error e => ⟨some e, [], kw0, none, none⟩
  | .ok so =>
    match runBoxes env a.quantity so.scaling a.boxes a.boxes 0 ⟨kw0, [], 0⟩ with
    | (st1, some e) => ⟨some e, st1.draws, st1.kwargs, some so, none⟩
    | (st1, none) =>
      let st2 := match a.filters with
        | none => st1
        | some fs => { st1 with draws := st1.draws ++ fs.map DrawCall.filterProfile }
      match a.residuals with
      | none => ⟨none, st2.draws, st2.kwargs, some so, none⟩
      | some r =>
        match runResiduals a.boxes a.ylim_res r st2 with
        | (st3, _, some e) => ⟨some e, st3.draws, st3.kwargs, some so, none⟩
        | (st3, panel, none) => ⟨none, st3.draws, st3.kwargs, some so, panel⟩

/-- The plotting routine `plot_spectrum`.  The very first effectful
step (source lines 203-210) validates that a caller-supplied
`plot_kwargs` list has exactly one entry per box and raises
`ValueError` before anything is drawn otherwise. -/
def plot_spectrum (env : Env) (a : Args) : RenderResult :=
  match a.plot_kwargs with
  | some l =>
      if l.length ≠ a.boxes.length then ⟨some .valueError, [], l, none, none⟩
      else plotSpectrumBody env a l
  | none => plotSpectrumBody env a []

/-! ## Specification-side definitions

The following definitions transcribe the *specification's wording* (not
the code) for the properties compared against the code above. -/

/-- Fold the absolute values of the finite entries of a float list into
a running maximum, ignoring every non-finite entry — the
specification's "max |residual| over all finite residual values". -/
def finAbsFold (vals : List FP) (m : ℚ) : ℚ :=
  vals.foldl (fun acc v => match v with | .fin q => max acc |q| | _ => acc) m

/-- Specification-side residual maximum: the maximum absolute value of
all finite residual values (photometric and spectral), with 0 as the
starting value. -/
def specResMaxFinite (r : ResidualsBox) : ℚ :=
  (r.spectrum.getD []).foldl (fun acc it => finAbsFold (it.2.map (fun p => p.2)) acc)
    ((r.photometry.getD []).foldl (fun acc it => finAbsFold (resPhotVals it.2) acc) 0)

/-- Specification-side residual limit: `ceil(1.1 × max |residual|)`,
reset to 5 exactly when it exceeds 10. -/
def specResLimit (r : ResidualsBox) : ℤ :=
  let c := ⌈(11/10 : ℚ) * specResMaxFinite r⌉
  if 10 < c then 5 else c

/-- Insert the default `zorder` of duplicated-measurement photometry
into a style dictionary when absent. -/
def zorderIns (d : KDict) : KDict :=
  if dhas d "zorder" then d else dset d "zorder" (.s (.num 3))

/-- Specification-side drawing of a duplicated-measurement filter:
measurement `i` is drawn with style dictionary `i` of the override
list. -/
def multiDrawsSpec (w fw : ℚ) (fs : FP) (scaling : ℚ) (ks : List KDict) :
    List (FP × FP) → Nat → List DrawCall
  | [], _ => []
  | c :: rest, i =>
    DrawCall.photPoint w (plotVal fs scaling c.1) (fw / 2)
      (some (plotVal fs scaling c.2)) (zorderIns (ks.getD i []))
      :: multiDrawsSpec w fw fs scaling ks rest (i + 1)

/-- Whether a box is an `ObjectBox`. -/
def Box.isObjBox : Box → Bool
  | .obj _ => true
  | _ => false

/-! ## Concrete inputs used by witnesses and counterexamples -/

/-- A concrete filter environment: every filter has mean wavelength 1
and FWHM 1, and the label formatter returns nothing. -/
def envW : Env := ⟨fun _ => 1, fun _ => 1, fun _ => none⟩

def aW1 : Args := ⟨[], none, none, some [none], none, none, none, "flux density"⟩

def aC2x : Args := ⟨[Box.spec [FP.fin 1] [FP.fin 1] false "m"], none,
  some ⟨none, none⟩, none, none, none, none, "flux density"⟩

def aC3x : Args := ⟨[], none, none, none, some (1/1000, 500), none,
  some ("linear", "linear"), "magnitude"⟩

def rC4x : ResidualsBox := ⟨none, some [("s", [(FP.fin 1, FP.pinf), (FP.fin 2, FP.fin 1)])]⟩

def aC4x : Args := ⟨[Box.obj ⟨none, none⟩], none, some rC4x,
  none, none, none, none, "flux density"⟩

def aC5x : Args := ⟨[Box.spec [FP.fin 1] [FP.fin 1] false "m"], none, none,
  some [none], none, none, none, "flux density"⟩

def aC6x : Args := ⟨[Box.obj ⟨none, some [("F", PhotVal.multi
    [(FP.fin 1, FP.fin (1/10)), (FP.fin 2, FP.fin (1/5))])]⟩], none, none,
  some [some [("F", KVal.l [[("color", KVal.s (SVal.str "red"))],
    [("color", KVal.s (SVal.str "blue"))], [("color", KVal.s (SVal.str "green"))]])]],
  none, none, none, "flux density"⟩

def aC7x : Args := ⟨[Box.spec [FP.fin 1, FP.fin 2, FP.fin 3]
    [FP.fin 1, FP.pinf, FP.nan] false "m"], none, none, none, none, none, none,
  "flux density"⟩

def aC8x : Args := ⟨[Box.spec [FP.fin 1] [FP.fin 1] false "m"], none, none,
  some [none], none, none, none, "flux density"⟩

def aC9x : Args := ⟨[Box.obj ⟨none, some [("X", PhotVal.multi
      [(FP.fin 1, FP.fin 1), (FP.fin 2, FP.fin 1)])]⟩,
    Box.synphot [("X", FP.fin 1)]], none, none,
  some [some [("X", KVal.l [[("color", KVal.s (SVal.str "blue")),
      ("mfc", KVal.s (SVal.str "red"))], [("color", KVal.s (SVal.str "green"))]])], none],
  none, none, none, "flux density"⟩

def rC4w : ResidualsBox := ⟨none, some [("s",
  [(FP.fin 1, FP.fin (-16/5)), (FP.fin 2, FP.fin (49/10)), (FP.fin 3, FP.fin 1)])]⟩

def stC4w : RState := ⟨[none], [], 0⟩

def stC4w2 : RState := ⟨[none], [DrawCall.resSeries [FP.fin 1, FP.fin 2, FP.fin 3]
  [FP.fin (-16/5), FP.fin (49/10), FP.fin 1]
  [("marker", KVal.s (SVal.str "o")), ("ms", KVal.s (SVal.num 2)),
   ("ls", KVal.s (SVal.str "none")), ("zorder", KVal.s (SVal.num 1))]], 0⟩

/-! ## Supporting lemmas -/



theorem setKwItem_kwargs_length (idx : Nat) (item : String) (v : KVal) (st : RState) :
    (setKwItem idx item v st).kwargs.length = st.kwargs.length := by
  unfold setKwItem
  cases h : st.kwargs.get? idx with
  | none => rfl
  | some mo => cases mo <;> simp

theorem resPhotTwoLoop_kwargs_length (oi : Nat) (item : String)
    (cols : List (FP × FP)) :
    ∀ (i : Nat) (st : RState),
      ((resPhotTwoLoop oi item cols i st).1).kwargs.length = st.kwargs.length := by
  induction cols with
  | nil => intro i st; rfl
  | cons c rest ih =>
    intro i st
    unfold resPhotTwoLoop
    dsimp only
    repeat' split
    all_goals simp_all [setKwItem_kwargs_length]

theorem resPhotDraw_kwargs_length (oi : Nat) (item : String) (rp : ResPhot)
    (st : RState) :
    ((resPhotDraw oi item rp st).1).kwargs.length = st.kwargs.length := by
  unfold resPhotDraw
  dsimp only
  repeat' split
  all_goals simp_all [setKwItem_kwargs_length, resPhotTwoLoop_kwargs_length]

theorem resPhotItem_kwargs_length (oi : Nat) (item : String) (rp : ResPhot)
    (st : RState) (resMax : FP) :
    ((resPhotItem oi item rp st resMax).1).kwargs.length = st.kwargs.length := by
  unfold resPhotItem
  have hd := resPhotDraw_kwargs_length oi item rp st
  rcases h : resPhotDraw oi item rp st with ⟨st1, e1⟩
  rw [h] at hd
  cases e1 with
  | some e => exact hd
  | none => cases hf : finiteAbsMax (resPhotVals rp) <;> exact hd

theorem resPhotFold_kwargs_length (oi : Nat) (items : List (String × ResPhot)) :
    ∀ (st : RState) (resMax : FP),
      ((resPhotFold oi items st resMax).1).kwargs.length = st.kwargs.length := by
  induction items with
  | nil => intro st resMax; rfl
  | cons it rest ih =>
    intro st resMax
    unfold resPhotFold
    have hk := resPhotItem_kwargs_length oi it.1 it.2 st resMax
    rcases h : resPhotItem oi it.1 it.2 st resMax with ⟨st1, m1, e1⟩
    rw [h] at hk
    cases e1 with
    | none => simpa [ih st1 m1] using hk
    | some e => exact hk

theorem resSpecDraw_kwargs_length (oi : Nat) (key : String)
    (rows : List (FP × FP)) (st : RState) :
    ((resSpecDraw oi key rows st).1).kwargs.length = st.kwargs.length := by
  unfold resSpecDraw
  dsimp only
  repeat' split
  all_goals simp_all [setKwItem_kwargs_length]

theorem resSpecItem_kwargs_length (oi : Nat) (key : String)
    (rows : List (FP × FP)) (st : RState) (resMax : FP) :
    ((resSpecItem oi key rows st resMax).1).kwargs.length = st.kwargs.length := by
  unfold resSpecItem
  have hd := resSpecDraw_kwargs_length oi key rows st
  rcases h : resSpecDraw oi key rows st with ⟨st1, e1⟩
  rw [h] at hd
  cases e1 with
  | some e => exact hd
  | none => cases hf : nanmaxAbs (rows.map (fun r => r.2)) <;> simp [hf] <;> exact hd

theorem resSpecFold_kwargs_length (oi : Nat) (items : List (String × List (FP × FP))) :
    ∀ (st : RState) (resMax : FP),
      ((resSpecFold oi items st resMax).1).kwargs.length = st.kwargs.length := by
  induction items with
  | nil => intro st resMax; rfl
  | cons it rest ih =>
    intro st resMax
    unfold resSpecFold
    have hk := resSpecItem_kwargs_length oi it.1 it.2 st resMax
    rcases h : resSpecItem oi it.1 it.2 st resMax with ⟨st1, m1, e1⟩
    rw [h] at hk
    cases e1 with
    | none => simpa [ih st1 m1] using hk
    | some e => exact hk

theorem runResiduals_kwargs_length (boxes : List Box) (ylimRes : Option (ℚ × ℚ))
    (r : ResidualsBox) (st : RState) :
    ((runResiduals boxes ylimRes r st).1).kwargs.length = st.kwargs.length := by
  unfold runResiduals
  cases hobj : findObjIdx boxes with
  | none => rfl
  | some oi =>
    dsimp only
    have h1 := resPhotFold_kwargs_length oi (r.photometry.getD []) st (FP.fin 0)
    rcases hp : resPhotFold oi (r.photometry.getD []) st (FP.fin 0) with ⟨st1, m1, e1⟩
    rw [hp] at h1
    cases e1 with
    | some e => exact h1
    | none =>
      dsimp only
      have h2 := resSpecFold_kwargs_length oi (r.spectrum.getD []) st1 m1
      rcases hsp : resSpecFold oi (r.spectrum.getD []) st1 m1 with ⟨st2, m2, e2⟩
      rw [hsp] at h2
      cases e2 with
      | some e => exact h2.trans h1
      | none =>
        cases hc : ceilPy ((FP.fin (11/10)).mul m2) with
        | error e => simp only [hc]; exact h2.trans h1
        | ok c0 => simp only [hc]; exact h2.trans h1

theorem objSpecKey_kwargs_length (q : String) (s : ℚ) (j : Nat) (key : String)
    (rows : List (FP × FP × FP)) (st : RState) :
    ((objSpecKey q s j key rows st).1).kwargs.length = st.kwargs.length := by
  unfold objSpecKey
  dsimp only
  repeat' split
  all_goals simp_all [setKwItem_kwargs_length]

theorem objSpecLoop_kwargs_length (q : String) (s : ℚ) (j : Nat)
    (ks : List (FP × String × List (FP × FP × FP))) :
    ∀ st : RState, ((objSpecLoop q s j ks st).1).kwargs.length = st.kwargs.length := by
  induction ks with
  | nil => intro st; rfl
  | cons k rest ih =>
    intro st
    unfold objSpecLoop
    have hk := objSpecKey_kwargs_length q s j k.2.1 k.2.2 st
    rcases h : objSpecKey q s j k.2.1 k.2.2 st with ⟨st1, e1⟩
    rw [h] at hk
    cases e1 with
    | none => simpa [ih st1] using hk
    | some e => exact hk

theorem objSpecPart_kwargs_length (q : String) (s : ℚ) (j : Nat)
    (specs : List (String × List (FP × FP × FP))) (st : RState) :
    ((objSpecPart q s j specs st).1).kwargs.length = st.kwargs.length := by
  unfold objSpecPart
  cases h : objSpecKeys specs with
  | error e => rfl
  | ok keyed => exact objSpecLoop_kwargs_length q s j _ st

theorem objPhotMultiLoop_kwargs_length (w fw : ℚ) (fs : FP) (s : ℚ) (j : Nat)
    (item : String) (cols : List (FP × FP)) :
    ∀ (ks : List KDict) (i : Nat) (st : RState),
      ((objPhotMultiLoop w fw fs s j item cols ks i st).1).kwargs.length =
        st.kwargs.length := by
  induction cols with
  | nil => intro ks i st; rfl
  | cons c rest ih =>
    intro ks i st
    unfold objPhotMultiLoop
    dsimp only
    split
    · rfl
    · split
      · simp [setKwItem_kwargs_length]
      · rw [ih]
        simp [setKwItem_kwargs_length]

theorem objPhotItem_kwargs_length (env : Env) (q : String) (s : ℚ) (j : Nat)
    (item : String) (pv : PhotVal) (st : RState) :
    ((objPhotItem env q s j item pv st).1).kwargs.length = st.kwargs.length := by
  unfold objPhotItem
  dsimp only
  repeat' split
  all_goals simp_all [setKwItem_kwargs_length, objPhotMultiLoop_kwargs_length]

theorem objPhotLoop_kwargs_length (env : Env) (q : String) (s : ℚ) (j : Nat)
    (items : List (String × PhotVal)) :
    ∀ st : RState, ((objPhotLoop env q s j items st).1).kwargs.length =
      st.kwargs.length := by
  induction items with
  | nil => intro st; rfl
  | cons it rest ih =>
    intro st
    unfold objPhotLoop
    have hk := objPhotItem_kwargs_length env q s j it.1 it.2 st
    rcases h : objPhotItem env q s j it.1 it.2 st with ⟨st1, e1⟩
    rw [h] at hk
    cases e1 with
    | none => simpa [ih st1] using hk
    | some e => exact hk

theorem objPhotPart_kwargs_length (env : Env) (q : String) (s : ℚ) (j : Nat)
    (items : List (String × PhotVal)) (st : RState) :
    ((objPhotPart env q s j items st).1).kwargs.length = st.kwargs.length := by
  unfold objPhotPart
  exact objPhotLoop_kwargs_length env q s j _ st

theorem runObjBox_kwargs_length (env : Env) (q : String) (s : ℚ) (j : Nat)
    (o : ObjectData) (st : RState) :
    ((runObjBox env q s j o st).1).kwargs.length = st.kwargs.length := by
  unfold runObjBox
  cases hsp : o.spectrum with
  | none =>
    dsimp only
    cases hfl : o.flux with
    | none => rfl
    | some items => exact objPhotPart_kwargs_length env q s j items st
  | some specs =>
    dsimp only
    have h1 := objSpecPart_kwargs_length q s j specs st
    rcases h : objSpecPart q s j specs st with ⟨st1, e1⟩
    rw [h] at h1
    cases e1 with
    | some e => exact h1
    | none =>
      dsimp only
      cases hfl : o.flux with
      | none => exact h1
      | some items => rw [objPhotPart_kwargs_length env q s j items st1, h1]

theorem synphotItem_kwargs_length (env : Env) (q : String) (s : ℚ)
    (objIdx : Option Nat) (j : Nat) (item : String) (fv : FP) (st : RState) :
    ((synphotItem env q s objIdx j item fv st).1).kwargs.length = st.kwargs.length := by
  unfold synphotItem
  dsimp only
  repeat' split
  all_goals rfl

theorem synphotLoop_kwargs_length (env : Env) (q : String) (s : ℚ)
    (objIdx : Option Nat) (j : Nat) (items : List (String × FP)) :
    ∀ st : RState, ((synphotLoop env q s objIdx j items st).1).kwargs.length =
      st.kwargs.length := by
  induction items with
  | nil => intro st; rfl
  | cons it rest ih =>
    intro st
    unfold synphotLoop
    have hk := synphotItem_kwargs_length env q s objIdx j it.1 it.2 st
    rcases h : synphotItem env q s objIdx j it.1 it.2 st with ⟨st1, e1⟩
    rw [h] at hk
    cases e1 with
    | none => simpa [ih st1] using hk
    | some e => exact hk

theorem runBox_kwargs_length (env : Env) (q : String) (s : ℚ) (ab : List Box)
    (j : Nat) (b : Box) (st : RState) :
    ((runBox env q s ab j b st).1).kwargs.length = st.kwargs.length := by
  cases b with
  | spec w f im mn =>
    unfold runBox
    cases h : st.kwargs.get? j with
    | none => rfl
    | some kj =>
      dsimp only
      cases hrs : runSpecBox env q s w f im mn kj <;> rfl
  | obj o => exact runObjBox_kwargs_length env q s j o st
  | synphot fl => exact synphotLoop_kwargs_length env q s _ j fl st

theorem runBoxes_kwargs_length (env : Env) (q : String) (s : ℚ) (ab : List Box)
    (bs : List Box) :
    ∀ (j : Nat) (st : RState),
      (runBoxes env q s ab bs j st).2 = none →
      ((runBoxes env q s ab bs j st).1).kwargs.length =
        st.kwargs.length + bs.length := by
  induction bs with
  | nil => intro j st _; simp [runBoxes]
  | cons b rest ih =>
    intro j st h
    unfold runBoxes at h ⊢
    have hb0 := runBox_kwargs_length env q s ab j b { st with kwargs := st.kwargs ++ [none] }
    rcases hb : runBox env q s ab j b { st with kwargs := st.kwargs ++ [none] } with ⟨st2, e2⟩
    rw [hb] at hb0
    simp only [hb] at h ⊢
    cases e2 with
    | some e => simp at h
    | none =>
      have h3 := ih (j + 1) st2 h
      rw [h3, hb0]
      simp
      omega

theorem plotSpectrumBody_kwargs_length (env : Env) (a : Args)
    (kw0 : List (Option KDict))
    (h : (plotSpectrumBody env a kw0).error = none) :
    (plotSpectrumBody env a kw0).kwargsFinal.length = kw0.length + a.boxes.length := by
  unfold plotSpectrumBody at h ⊢
  rcases hs : scaleNormalize a.quantity (a.scale.getD ("linear", "linear")).2 a.ylim
    with e | so
  · simp only [hs] at h
    simp at h
  · simp only [hs] at h ⊢
    have hb0 := runBoxes_kwargs_length env a.quantity so.scaling a.boxes a.boxes 0
      ⟨kw0, [], 0⟩
    rcases hb : runBoxes env a.quantity so.scaling a.boxes a.boxes 0 ⟨kw0, [], 0⟩
      with ⟨st1, e1⟩
    rw [hb] at hb0
    simp only [hb] at h ⊢
    cases e1 with
    | some e => simp at h
    | none =>
      have hlen1 : st1.kwargs.length = kw0.length + a.boxes.length := hb0 rfl
      cases hf : a.filters with
      | none =>
        simp only [hf] at h ⊢
        cases hr : a.residuals with
        | none => simp only [hr] at h ⊢; simpa using hlen1
        | some r =>
          simp only [hr] at h ⊢
          have h2 := runResiduals_kwargs_length a.boxes a.ylim_res r st1
          rcases hrr : runResiduals a.boxes a.ylim_res r st1 with ⟨st3, panel, e3⟩
          rw [hrr] at h2
          simp only [hrr] at h ⊢
          cases e3 with
          | some e => simp at h
          | none => simp only []; exact h2.trans hlen1
      | some fl =>
        simp only [hf] at h ⊢
        cases hr : a.residuals with
        | none => simp only [hr] at h ⊢; simpa using hlen1
        | some r =>
          simp only [hr] at h ⊢
          have h2 := runResiduals_kwargs_length a.boxes a.ylim_res r
            { st1 with draws := st1.draws ++ fl.map DrawCall.filterProfile }
          rcases hrr : runResiduals a.boxes a.ylim_res r
              { st1 with draws := st1.draws ++ fl.map DrawCall.filterProfile }
            with ⟨st3, panel, e3⟩
          rw [hrr] at h2
          simp only [hrr] at h ⊢
          cases e3 with
          | some e => simp at h
          | none => exact h2.trans hlen1

theorem plot_spectrum_length_mismatch (env : Env) (a : Args) (l : List (Option KDict))
    (h1 : a.plot_kwargs = some l) (h2 : l.length ≠ a.boxes.length) :
    plot_spectrum env a = ⟨some .valueError, [], l, none, none⟩ := by
  unfold plot_spectrum
  rw [h1]
  simp [h2]

theorem plot_spectrum_some_length (env : Env) (a : Args) (l : List (Option KDict))
    (h1 : a.plot_kwargs = some l) (h2 : (plot_spectrum env a).error = none) :
    l.length = a.boxes.length := by
  by_contra hne
  rw [plot_spectrum_length_mismatch env a l h1 hne] at h2
  simp at h2

theorem plot_spectrum_kwargs_growth (env : Env) (a : Args) (l : List (Option KDict))
    (h1 : a.plot_kwargs = some l) (h2 : (plot_spectrum env a).error = none) :
    (plot_spectrum env a).kwargsFinal.length = l.length + a.boxes.length := by
  have hlen := plot_spectrum_some_length env a l h1 h2
  have hcond : ¬ (l.length ≠ a.boxes.length) := by simp [hlen]
  unfold plot_spectrum at h2 ⊢
  rw [h1] at h2 ⊢
  dsimp only at h2 ⊢
  rw [if_neg hcond] at h2 ⊢
  exact plotSpectrumBody_kwargs_length env a l h2

theorem findObjIdx_eq_none {boxes : List Box}
    (h : ∀ bx ∈ boxes, bx.isObjBox = false) : findObjIdx boxes = none := by
  induction boxes with
  | nil => rfl
  | cons b rest ih =>
    cases b with
    | obj o =>
      have := h _ (List.mem_cons_self _ _)
      simp [Box.isObjBox] at this
    | spec w f im mn =>
      simp only [findObjIdx]
      rw [ih (fun bx hbx => h bx (List.mem_cons_of_mem _ hbx))]
      rfl
    | synphot fl =>
      simp only [findObjIdx]
      rw [ih (fun bx hbx => h bx (List.mem_cons_of_mem _ hbx))]
      rfl

theorem FP.one_mul_fp (v : FP) : FP.mul (FP.fin 1) v = v := by
  cases v <;> simp [FP.mul]

theorem list_zip_getElem {α β : Type} (as : List α) (bs : List β) :
    ∀ (i : Nat) (a : α) (b : β), as[i]? = some a → bs[i]? = some b →
      (as.zip bs)[i]? = some (a, b) := by
  induction as generalizing bs with
  | nil => intro i a b ha _; simp at ha
  | cons x xs ih =>
    intro i a b ha hb
    cases bs with
    | nil => simp at hb
    | cons y ys =>
      cases i with
      | zero =>
        simp at ha hb
        simp [List.zip_cons_cons, ha, hb]
      | succ n =>
        simp at ha hb
        simpa [List.zip_cons_cons] using ih ys n a b ha hb

theorem dhas_mapReplace (m : KDict) (k k2 : String) (v : KVal) :
    dhas (m.map (fun p => if p.1 == k2 then (p.1, v) else p)) k = dhas m k := by
  unfold dhas
  induction m with
  | nil => rfl
  | cons p rest ih =>
    simp only [List.map_cons, List.any_cons, ih]
    by_cases hp : (p.1 == k2) = true
    · simp [hp]
    · simp [hp]

theorem dhas_dset_ne (m : KDict) (k k2 : String) (v : KVal) (h : k ≠ k2) :
    dhas (dset m k2 v) k = dhas m k := by
  unfold dset
  by_cases hm : dhas m k2
  · rw [if_pos hm]
    exact dhas_mapReplace m k k2 v
  · rw [if_neg hm]
    unfold dhas
    rw [List.any_append]
    simp [show (k2 == k) = false from beq_eq_false_iff_ne.mpr (Ne.symm h)]

theorem dfind_mapReplace_ne (m : KDict) (k k2 : String) (v : KVal) (h : k ≠ k2) :
    dfind (m.map (fun p => if p.1 == k2 then (p.1, v) else p)) k = dfind m k := by
  unfold dfind
  induction m with
  | nil => rfl
  | cons p rest ih =>
    by_cases hp : (p.1 == k2) = true
    · have hpk : (p.1 == k) = false := by
        have hk2 : p.1 = k2 := beq_iff_eq.mp hp
        simp [hk2, show (k2 == k) = false from beq_eq_false_iff_ne.mpr (Ne.symm h)]
      simp only [List.map_cons, if_pos hp]
      rw [List.find?_cons_of_neg _ (by simp [hpk]),
        List.find?_cons_of_neg _ (by simp [hpk])]
      exact ih
    · simp only [List.map_cons, if_neg hp]
      by_cases hpk : (p.1 == k) = true
      · rw [List.find?_cons_of_pos _ (by simp [hpk]),
          List.find?_cons_of_pos _ (by simp [hpk])]
      · rw [List.find?_cons_of_neg _ (by simp [hpk]),
          List.find?_cons_of_neg _ (by simp [hpk])]
        exact ih

theorem dfind_dset_ne (m : KDict) (k k2 : String) (v : KVal) (h : k ≠ k2) :
    dfind (dset m k2 v) k = dfind m k := by
  unfold dset
  by_cases hm : dhas m k2
  · rw [if_pos hm]
    exact dfind_mapReplace_ne m k k2 v h
  · rw [if_neg hm]
    unfold dfind
    rw [List.find?_append]
    have h1 : List.find? (fun p => p.1 == k) [(k2, v)] = none := by
      simp [show (k2 == k) = false from beq_eq_false_iff_ne.mpr (Ne.symm h)]
    simp [h1]

theorem dhas_derase_self (m : KDict) (k : String) : dhas (derase m k) k = false := by
  unfold dhas derase
  induction m with
  | nil => rfl
  | cons p rest ih =>
    simp only [List.filter_cons]
    by_cases hp : (p.1 != k) = true
    · rw [if_pos hp]
      have hpk : (p.1 == k) = false := by simpa [bne] using hp
      simp [List.any_cons, hpk, ih]
    · rw [if_neg hp]
      exact ih

theorem dhas_derase_ne (m : KDict) (k k2 : String) (h : k ≠ k2) :
    dhas (derase m k2) k = dhas m k := by
  unfold dhas derase
  induction m with
  | nil => rfl
  | cons p rest ih =>
    simp only [List.filter_cons]
    by_cases hp : (p.1 != k2) = true
    · rw [if_pos hp]
      simp [List.any_cons, ih]
    · rw [if_neg hp]
      have hpk : (p.1 == k) = false := by
        have hk2 : p.1 = k2 := by simpa [bne] using hp
        simp [hk2, show (k2 == k) = false from beq_eq_false_iff_ne.mpr (Ne.symm h)]
      simp [List.any_cons, hpk, ih]

theorem dfind_derase_ne (m : KDict) (k k2 : String) (h : k ≠ k2) :
    dfind (derase m k2) k = dfind m k := by
  unfold dfind derase
  induction m with
  | nil => rfl
  | cons p rest ih =>
    simp only [List.filter_cons]
    by_cases hp : (p.1 != k2) = true
    · rw [if_pos hp]
      by_cases hpk : (p.1 == k) = true
      · rw [List.find?_cons_of_pos _ (by simp [hpk]),
          List.find?_cons_of_pos _ (by simp [hpk])]
      · rw [List.find?_cons_of_neg _ (by simp [hpk]),
          List.find?_cons_of_neg _ (by simp [hpk])]
        exact ih
    · rw [if_neg hp]
      have hpk : (p.1 == k) = false := by
        have hk2 : p.1 = k2 := by simpa [bne] using hp
        simp [hk2, show (k2 == k) = false from beq_eq_false_iff_ne.mpr (Ne.symm h)]
      rw [List.find?_cons_of_neg _ (by simp [hpk])]
      exact ih

theorem dfind_some_dhas (m : KDict) (k : String) (v : KVal)
    (h : dfind m k = some v) : dhas m k = true := by
  unfold dfind at h
  unfold dhas
  induction m with
  | nil => simp at h
  | cons p rest ih =>
    by_cases hp : (p.1 == k) = true
    · simp [List.any_cons, hp]
    · rw [List.find?_cons_of_neg _ (by simp [hp])] at h
      simp [List.any_cons, hp, ih h]

theorem setKwItem_draws (idx : Nat) (item : String) (v : KVal) (st : RState) :
    (setKwItem idx item v st).draws = st.draws := by
  unfold setKwItem
  cases h : st.kwargs.get? idx with
  | none => rfl
  | some mo => cases mo <;> rfl

theorem objPhotMultiLoop_ok (w fw : ℚ) (fs : FP) (s : ℚ) (j : Nat) (item : String)
    (ks0 : List KDict)
    (hconf : ∀ (t : Nat) (d : KDict), ks0[t]? = some d →
      dhas d "xerr" = false ∧ dhas d "yerr" = false) :
    ∀ (cols : List (FP × FP)) (ks : List KDict) (i : Nat) (st : RState),
      ks.length = ks0.length →
      (∀ t, i ≤ t → ks[t]? = ks0[t]?) →
      i + cols.length ≤ ks0.length →
      ∃ st2, objPhotMultiLoop w fw fs s j item cols ks i st = (st2, none) ∧
        st2.draws = st.draws ++ multiDrawsSpec w fw fs s ks0 cols i := by
  intro cols
  induction cols with
  | nil =>
    intro ks i st _ _ _
    exact ⟨st, rfl, by simp [multiDrawsSpec]⟩
  | cons c rest ih =>
    intro ks i st hlen hagree hub
    have hi : i < ks0.length := by simp at hub; omega
    have hd0 : ks0[i]? = some ks0[i] := List.getElem?_eq_getElem hi
    have hd : ks[i]? = some ks0[i] := by rw [hagree i le_rfl, hd0]
    obtain ⟨hx, hy⟩ := hconf i ks0[i] hd0
    unfold objPhotMultiLoop
    rw [show ks.get? i = some ks0[i] by rw [List.get?_eq_getElem?, hd]]
    dsimp only
    have hgetD : ks0.getD i [] = ks0[i] := by simp [List.getD, hd0]
    have hmerge : mergeKw ["xerr", "yerr"] []
        (if dhas ks0[i] "zorder" then ks0[i]
         else dset ks0[i] "zorder" (.s (.num 3))) =
        .ok (zorderIns ks0[i]) := by
      unfold mergeKw zorderIns
      by_cases hz : dhas ks0[i] "zorder"
      · simp [hz, hx, hy]
      · simp [hz, dhas_dset_ne ks0[i] "xerr" "zorder" (KVal.s (SVal.num 3)) (by decide),
          dhas_dset_ne ks0[i] "yerr" "zorder" (KVal.s (SVal.num 3)) (by decide), hx, hy]
    rw [hmerge]
    obtain ⟨st2, heq, hdraws⟩ := ih
      (ks.set i (if dhas ks0[i] "zorder" then ks0[i]
        else dset ks0[i] "zorder" (.s (.num 3)))) (i + 1)
      { setKwItem j item (.l (ks.set i (if dhas ks0[i] "zorder" then ks0[i]
          else dset ks0[i] "zorder" (.s (.num 3))))) st with
        draws := (setKwItem j item (.l (ks.set i (if dhas ks0[i] "zorder" then ks0[i]
          else dset ks0[i] "zorder" (.s (.num 3))))) st).draws ++
          [DrawCall.photPoint w (plotVal fs s c.1) (fw / 2)
            (some (plotVal fs s c.2)) (zorderIns ks0[i])] }
      (by simpa using hlen)
      (by
        intro t ht
        rw [List.getElem?_set_ne (by omega)]
        exact hagree t (by omega))
      (by simp at hub ⊢; omega)
    refine ⟨st2, heq, ?_⟩
    rw [hdraws]
    simp [multiDrawsSpec, setKwItem_draws, List.getD, hd0]

theorem objPhotMultiLoop_short (w fw : ℚ) (fs : FP) (s : ℚ) (j : Nat) (item : String)
    (ks0 : List KDict)
    (hconf : ∀ (t : Nat) (d : KDict), ks0[t]? = some d →
      dhas d "xerr" = false ∧ dhas d "yerr" = false) :
    ∀ (cols : List (FP × FP)) (ks : List KDict) (i : Nat) (st : RState),
      ks.length = ks0.length →
      (∀ t, i ≤ t → ks[t]? = ks0[t]?) →
      ks0.length < i + cols.length → i ≤ ks0.length →
      ∃ st2, objPhotMultiLoop w fw fs s j item cols ks i st =
        (st2, some .indexError) := by
  intro cols
  induction cols with
  | nil =>
    intro ks i st _ _ hlt hle
    simp at hlt
    omega
  | cons c rest ih =>
    intro ks i st hlen hagree hlt hle
    rcases Nat.lt_or_ge i ks0.length with hi | hi
    · have hd0 : ks0[i]? = some ks0[i] := List.getElem?_eq_getElem hi
      have hd : ks[i]? = some ks0[i] := by rw [hagree i le_rfl, hd0]
      obtain ⟨hx, hy⟩ := hconf i ks0[i] hd0
      unfold objPhotMultiLoop
      rw [show ks.get? i = some ks0[i] by rw [List.get?_eq_getElem?, hd]]
      dsimp only
      have hmerge : mergeKw ["xerr", "yerr"] []
          (if dhas ks0[i] "zorder" then ks0[i]
           else dset ks0[i] "zorder" (.s (.num 3))) =
          .ok (zorderIns ks0[i]) := by
        unfold mergeKw zorderIns
        by_cases hz : dhas ks0[i] "zorder"
        · simp [hz, hx, hy]
        · simp [hz, dhas_dset_ne ks0[i] "xerr" "zorder" (KVal.s (SVal.num 3)) (by decide),
            dhas_dset_ne ks0[i] "yerr" "zorder" (KVal.s (SVal.num 3)) (by decide),
            hx, hy]
      rw [hmerge]
      exact ih
        (ks.set i (if dhas ks0[i] "zorder" then ks0[i]
          else dset ks0[i] "zorder" (.s (.num 3)))) (i + 1) _
        (by simpa using hlen)
        (by
          intro t ht
          rw [List.getElem?_set_ne (by omega)]
          exact hagree t (by omega))
        (by simp at hlt ⊢; omega)
        (by omega)
    · have hnone : ks[i]? = none := by
        rw [hagree i le_rfl]
        exact List.getElem?_eq_none hi
      unfold objPhotMultiLoop
      rw [show ks.get? i = none by rw [List.get?_eq_getElem?, hnone]]
      exact ⟨st, rfl⟩

theorem foldl_max_comm (xs : List ℚ) : ∀ (q x : ℚ),
    xs.foldl max (max q x) = max q (xs.foldl max x) := by
  induction xs with
  | nil => intro q x; rfl
  | cons y ys ih =>
    intro q x
    show ys.foldl max (max (max q x) y) = max q (ys.foldl max (max x y))
    rw [max_assoc, ih]

theorem finAbsFold_eq_filterMap (vals : List FP) : ∀ q : ℚ,
    finAbsFold vals q = (vals.filterMap finAbsVal).foldl max q := by
  induction vals with
  | nil => intro q; rfl
  | cons v rest ih =>
    intro q
    cases v with
    | fin r => exact ih (max q |r|)
    | pinf => exact ih q
    | ninf => exact ih q
    | nan => exact ih q

theorem gtMaxFin (q x : ℚ) :
    (if FP.gt (FP.fin x) (FP.fin q) then FP.fin x else FP.fin q) =
      FP.fin (max q x) := by
  unfold FP.gt
  rcases lt_or_ge q x with h | h
  · simp [h, max_eq_right h.le]
  · simp [not_lt.mpr h, max_eq_left h]

theorem finiteAbsMax_finAbsFold (vals : List FP) (x : ℚ)
    (h : finiteAbsMax vals = .ok x) : ∀ q, finAbsFold vals q = max q x := by
  intro q
  unfold finiteAbsMax at h
  rcases hfm : vals.filterMap finAbsVal with _ | ⟨y, ys⟩
  · rw [hfm] at h
    simp at h
  · rw [hfm] at h
    simp at h
    rw [finAbsFold_eq_filterMap, hfm]
    show (y :: ys).foldl max q = max q x
    rw [List.foldl_cons, foldl_max_comm, h]

theorem resPhotItem_max_ok (oi : Nat) (item : String) (rp : ResPhot)
    (st st1 : RState) (q : ℚ) (m1 : FP)
    (h : resPhotItem oi item rp st (FP.fin q) = (st1, m1, none)) :
    m1 = FP.fin (finAbsFold (resPhotVals rp) q) := by
  unfold resPhotItem at h
  rcases hd : resPhotDraw oi item rp st with ⟨std, ed⟩
  rw [hd] at h
  cases ed with
  | some e => simp at h
  | none =>
    cases hf : finiteAbsMax (resPhotVals rp) with
    | error e => rw [hf] at h; simp at h
    | ok x =>
      rw [hf] at h
      simp only [Prod.mk.injEq] at h
      have hx := finiteAbsMax_finAbsFold (resPhotVals rp) x hf q
      rw [gtMaxFin q x] at h
      rw [← h.2.1, hx]

theorem resPhotFold_max_ok (oi : Nat) (items : List (String × ResPhot)) :
    ∀ (st st1 : RState) (q : ℚ) (m1 : FP),
      resPhotFold oi items st (FP.fin q) = (st1, m1, none) →
      m1 = FP.fin (items.foldl (fun acc it => finAbsFold (resPhotVals it.2) acc) q) := by
  induction items with
  | nil =>
    intro st st1 q m1 h
    unfold resPhotFold at h
    simp only [Prod.mk.injEq] at h
    rw [← h.2.1]
    rfl
  | cons it rest ih =>
    intro st st1 q m1 h
    unfold resPhotFold at h
    rcases hs : resPhotItem oi it.1 it.2 st (FP.fin q) with ⟨sta, ma, ea⟩
    rw [hs] at h
    cases ea with
    | some e => simp at h
    | none =>
      have hma := resPhotItem_max_ok oi it.1 it.2 st sta q ma hs
      subst hma
      exact ih sta st1 _ m1 h

theorem mapAbsFilter_noinf (vals : List FP) (h : ∀ v ∈ vals, v.isinf = false) :
    (vals.map FP.abs).filter (fun v => !v.isnan) =
      (vals.filterMap finAbsVal).map FP.fin := by
  induction vals with
  | nil => rfl
  | cons v rest ih =>
    have hv : v.isinf = false := h v (List.mem_cons_self v rest)
    have hrest : ∀ w ∈ rest, w.isinf = false := fun w hw => h w (List.mem_cons_of_mem v hw)
    cases v with
    | fin r =>
      rw [List.map_cons, List.filter_cons, ih hrest, List.filterMap_cons]
      rfl
    | nan =>
      rw [List.map_cons, List.filter_cons, ih hrest, List.filterMap_cons]
      rfl
    | pinf => simp [FP.isinf] at hv
    | ninf => simp [FP.isinf] at hv

theorem fpMaxList_fin (xs : List ℚ) : ∀ x : ℚ,
    fpMaxList (FP.fin x) (xs.map FP.fin) = FP.fin (xs.foldl max x) := by
  induction xs with
  | nil => intro x; rfl
  | cons y ys ih =>
    intro x
    show fpMaxList (if FP.gt (FP.fin y) (FP.fin x) then FP.fin y else FP.fin x)
      (ys.map FP.fin) = _
    rw [gtMaxFin x y]
    exact ih (max x y)

theorem nanmaxAbs_noinf (vals : List FP) (h : ∀ v ∈ vals, v.isinf = false)
    (x : FP) (hx : nanmaxAbs vals = .ok x) (q : ℚ) :
    (if FP.gt x (FP.fin q) then x else FP.fin q) = FP.fin (finAbsFold vals q) := by
  unfold nanmaxAbs at hx
  cases vals with
  | nil => simp at hx
  | cons v rest =>
    rw [mapAbsFilter_noinf (v :: rest) h] at hx
    rcases hq : (v :: rest).filterMap finAbsVal with _ | ⟨y, ys⟩
    · rw [hq] at hx
      simp at hx
      subst hx
      rw [finAbsFold_eq_filterMap, hq]
      rfl
    · rw [hq] at hx
      simp only [List.map_cons, Except.ok.injEq] at hx
      rw [fpMaxList_fin] at hx
      subst hx
      rw [gtMaxFin q (ys.foldl max y)]
      rw [finAbsFold_eq_filterMap, hq]
      rw [List.foldl_cons, foldl_max_comm]

theorem resSpecItem_max_ok (oi : Nat) (key : String) (rows : List (FP × FP))
    (h2 : ∀ v ∈ rows.map (fun p => p.2), v.isinf = false)
    (st st1 : RState) (q : ℚ) (m1 : FP)
    (h : resSpecItem oi key rows st (FP.fin q) = (st1, m1, none)) :
    m1 = FP.fin (finAbsFold (rows.map (fun p => p.2)) q) := by
  unfold resSpecItem at h
  rcases hd : resSpecDraw oi key rows st with ⟨std, ed⟩
  rw [hd] at h
  cases ed with
  | some e => simp at h
  | none =>
    cases hf : nanmaxAbs (rows.map (fun p => p.2)) with
    | error e => rw [hf] at h; simp at h
    | ok x =>
      rw [hf] at h
      simp only [Prod.mk.injEq] at h
      rw [← h.2.1]
      exact nanmaxAbs_noinf (rows.map (fun p => p.2)) h2 x hf q

theorem resSpecFold_max_ok (oi : Nat) (items : List (String × List (FP × FP))) :
    (∀ it ∈ items, ∀ v ∈ it.2.map (fun p => p.2), v.isinf = false) →
    ∀ (st st1 : RState) (q : ℚ) (m1 : FP),
      resSpecFold oi items st (FP.fin q) = (st1, m1, none) →
      m1 = FP.fin (items.foldl (fun acc it => finAbsFold (it.2.map (fun p => p.2)) acc) q) := by
  induction items with
  | nil =>
    intro _ st st1 q m1 h
    unfold resSpecFold at h
    simp only [Prod.mk.injEq] at h
    rw [← h.2.1]
    rfl
  | cons it rest ih =>
    intro hinf st st1 q m1 h
    unfold resSpecFold at h
    rcases hs : resSpecItem oi it.1 it.2 st (FP.fin q) with ⟨sta, ma, ea⟩
    rw [hs] at h
    cases ea with
    | some e => simp at h
    | none =>
      have h2 : ∀ v ∈ it.2.map (fun p => p.2), v.isinf = false :=
        hinf it (List.mem_cons_self it rest)
      have hma := resSpecItem_max_ok oi it.1 it.2 h2 st sta q ma hs
      subst hma
      exact ih (fun j hj => hinf j (List.mem_cons_of_mem it hj)) sta st1 _ m1 h

/-! ## Claim theorems -/

/-- C1: for every call in which `plot_kwargs` is not `None` and its
length differs from the number of boxes, the call raises `ValueError`
before any draw call executes, so nothing is drawn. -/
theorem C1_kwargs_mismatch_aborts (env : Env) (a : Args) (l : List (Option KDict))
    (h1 : a.plot_kwargs = some l) (h2 : l.length ≠ a.boxes.length) :
    (plot_spectrum env a).error = some .valueError ∧ (plot_spectrum env a).draws = [] := by
  unfold plot_spectrum
  rw [h1]
  simp [h2]

/-- Witness for C1 at a concrete input: one override entry, no boxes. -/
theorem C1_kwargs_mismatch_aborts_witness :
    aW1.plot_kwargs = some [none] ∧
    ([none] : List (Option KDict)).length ≠ aW1.boxes.length ∧
    (plot_spectrum envW aW1).error = some .valueError ∧
    (plot_spectrum envW aW1).draws = [] := by
  refine ⟨rfl, by decide, ?_, ?_⟩
  · exact (C1_kwargs_mismatch_aborts envW aW1 [none] rfl (by decide)).1
  · exact (C1_kwargs_mismatch_aborts envW aW1 [none] rfl (by decide)).2

/-- C10: with `quantity == "magnitude"` the scaling is fixed at one,
the y-axis label is `Contrast (mag)`, no exponent is computed even
with an explicit `ylim` and a linear scale, and plotted values are
never divided by a power of ten. -/
theorem C10_magnitude_scaling_fixed :
    (∀ (scaleY : String) (ylim : Option (ℚ × ℚ)),
      scaleNormalize "magnitude" scaleY ylim =
        .ok ⟨1, none, "Contrast (mag)", ylim, false⟩) ∧
    ∀ v : FP, plotVal (FP.fin 1) 1 v = v := by
  constructor
  · intro scaleY ylim
    rfl
  · intro v
    cases v <;> simp [plotVal, FP.mul, FP.div]

/-- C2 counterexample: with residuals requested and no `ObjectBox`
among the boxes, the call does fail with `ValueError`, but only after
a draw call for the spectrum box was already issued — not "before any
drawing occurs". -/
theorem C2_draws_before_residual_error_cex :
    (plot_spectrum envW aC2x).error = some PyErr.valueError ∧
    (plot_spectrum envW aC2x).draws.length = 1 := by
  with_unfolding_all decide

/-- C3 counterexample: with `quantity == "magnitude"`, an explicit
`ylim = (1e-3, 5e2)` and a linear y-scale, the scaling is 1 and no
exponent is computed, not `scaling = 100`, `exponent = 2` as the
claim's universal statement requires. -/
theorem C3_magnitude_bypasses_exponent_cex :
    (plot_spectrum envW aC3x).scaleOut.map ScaleOut.scaling = some 1 ∧
    (plot_spectrum envW aC3x).scaleOut.map ScaleOut.scaling ≠ some 100 ∧
    (plot_spectrum envW aC3x).scaleOut.map ScaleOut.exponent = some none := by
  with_unfolding_all decide

/-- C4 counterexample: a spectral residual containing `+inf` is *not*
ignored — `np.nanmax` keeps it, `math.ceil` then overflows and the
call dies with `OverflowError`, whereas the claim's formula over the
finite residual values (here max = 1) would give the limit 2. -/
theorem C4_spectral_inf_not_ignored_cex :
    (plot_spectrum envW aC4x).error = some PyErr.overflowError ∧
    (plot_spectrum envW aC4x).resPanel = none ∧
    specResLimit rC4x = 2 := by
  with_unfolding_all decide

/-- C5 counterexample: a call that succeeds nonetheless mutates the
caller's `plot_kwargs` list — one `None` entry is appended per box, so
its length grows from 1 to 2. -/
theorem C5_kwargs_list_mutated_cex :
    (plot_spectrum envW aC5x).error = none ∧
    aC5x.plot_kwargs = some [none] ∧
    (plot_spectrum envW aC5x).kwargsFinal.length = 2 ∧
    (plot_spectrum envW aC5x).kwargsFinal.length ≠
      ([none] : List (Option KDict)).length :=
  ⟨by with_unfolding_all decide, rfl, by with_unfolding_all decide,
   by with_unfolding_all decide⟩

/-- C6 counterexample: a filter with 2 stacked measurements supplied
with a 3-element override list renders successfully (the third element
is silently ignored), while the claim demands a configuration error
for any list that is not exactly of length 2. -/
theorem C6_overlong_list_accepted_cex :
    (plot_spectrum envW aC6x).error = none ∧
    (plot_spectrum envW aC6x).draws.length = 2 := by
  with_unfolding_all decide

/-- C7 counterexample: a `+inf` flux sample is *not* masked — the
drawn series keeps it (`some pinf`), only the `nan` sample becomes a
gap, contradicting "NaN and ±infinity alike". -/
theorem C7_inf_not_masked_cex :
    (plot_spectrum envW aC7x).error = none ∧
    (plot_spectrum envW aC7x).draws.map DrawCall.ysOf =
      [some [some (FP.fin 1), some FP.pinf, none]] ∧
    FP.pinf.isfinite = false := by
  with_unfolding_all decide

/-- C8 counterexample: the first call succeeds but appends to the very
`plot_kwargs` list object it was given, so a second call with the same
list object fails the length check with `ValueError` instead of
rendering the same figure. -/
theorem C8_second_call_fails_cex :
    (plot_spectrum envW aC8x).error = none ∧
    (plot_spectrum envW { aC8x with
        plot_kwargs := some (plot_spectrum envW aC8x).kwargsFinal }).error =
      some PyErr.valueError := by
  with_unfolding_all decide

/-- C9 counterexample: when the borrowed `ObjectBox` style for the
filter is a *list* whose first dictionary carries an `mfc` key, the
key is not stripped and the synthetic point is not drawn at all — the
duplicated `mfc` keyword raises `TypeError`. -/
theorem C9_borrowed_list_mfc_cex :
    (plot_spectrum envW aC9x).error = some PyErr.typeError ∧
    (plot_spectrum envW aC9x).draws.length = 2 := by
  with_unfolding_all decide

/-- C5 (amended): `plot_spectrum` does mutate the caller-supplied
`plot_kwargs`: every successful call appends one `None` entry per box
to the very list object it was given (besides inserting default
`zorder` keys and captured styles into its dictionaries), so after the
call the list has grown by the number of boxes and is no longer the
list that was passed in. -/
theorem C5_plot_kwargs_mutated (env : Env) (a : Args) (l : List (Option KDict))
    (h1 : a.plot_kwargs = some l) (h2 : (plot_spectrum env a).error = none) :
    (plot_spectrum env a).kwargsFinal.length = l.length + a.boxes.length ∧
    (a.boxes ≠ [] → (plot_spectrum env a).kwargsFinal ≠ l) := by
  have hg := plot_spectrum_kwargs_growth env a l h1 h2
  refine ⟨hg, fun hne hEq => ?_⟩
  rw [hEq] at hg
  have hpos : 0 < a.boxes.length := List.length_pos.mpr hne
  omega

/-- Witness for C5 at a concrete input: one box, one override entry;
after the call the list has two entries. -/
theorem C5_plot_kwargs_mutated_witness :
    aC5x.plot_kwargs = some [none] ∧ (plot_spectrum envW aC5x).error = none ∧
    ((plot_spectrum envW aC5x).kwargsFinal.length =
        ([none] : List (Option KDict)).length + aC5x.boxes.length ∧
      (aC5x.boxes ≠ [] → (plot_spectrum envW aC5x).kwargsFinal ≠ [none])) :=
  ⟨rfl, by with_unfolding_all decide,
   C5_plot_kwargs_mutated envW aC5x [none] rfl (by with_unfolding_all decide)⟩

/-- C8 (amended): calling `plot_spectrum` twice with identical inputs
including the very same `plot_kwargs` list object is *not* idempotent:
the first (successful) call grows that list by one entry per box, so
the second call fails the length check with `ValueError` and draws
nothing.  (With `plot_kwargs = None` the caller passes no mutable
state and the second call behaves like the first.) -/
theorem C8_second_call_value_error (env : Env) (a : Args) (l : List (Option KDict))
    (h1 : a.plot_kwargs = some l) (hne : a.boxes ≠ [])
    (h2 : (plot_spectrum env a).error = none) :
    (plot_spectrum env { a with
        plot_kwargs := some (plot_spectrum env a).kwargsFinal }).error =
      some .valueError ∧
    (plot_spectrum env { a with
        plot_kwargs := some (plot_spectrum env a).kwargsFinal }).draws = [] := by
  have hg := plot_spectrum_kwargs_growth env a l h1 h2
  have hlen := plot_spectrum_some_length env a l h1 h2
  have hpos : 0 < a.boxes.length := List.length_pos.mpr hne
  have hne2 : ((plot_spectrum env a).kwargsFinal).length ≠
      ({ a with plot_kwargs := some (plot_spectrum env a).kwargsFinal } : Args).boxes.length := by
    simp only [hg, hlen]
    omega
  rw [plot_spectrum_length_mismatch env _ _ rfl hne2]
  exact ⟨rfl, rfl⟩

/-- Witness for C8 at a concrete input. -/
theorem C8_second_call_value_error_witness :
    aC8x.plot_kwargs = some [none] ∧ aC8x.boxes ≠ [] ∧
    (plot_spectrum envW aC8x).error = none ∧
    ((plot_spectrum envW { aC8x with
        plot_kwargs := some (plot_spectrum envW aC8x).kwargsFinal }).error =
      some .valueError ∧
    (plot_spectrum envW { aC8x with
        plot_kwargs := some (plot_spectrum envW aC8x).kwargsFinal }).draws = []) :=
  ⟨rfl, by simp [aC8x], by with_unfolding_all decide,
   C8_second_call_value_error envW aC8x [none] rfl (by simp [aC8x])
     (by with_unfolding_all decide)⟩

/-- C2 (amended): requesting residuals without an `ObjectBox` among the
boxes is fatal (`ValueError`) and the residual panel is never set up,
but the error is raised *after* the main drawing loop and the filter
profiles: the residual section is the first point that checks for the
`ObjectBox`, and it raises before drawing any residual content. -/
theorem C2_residuals_require_object (env : Env) (a : Args) (r : ResidualsBox)
    (h1 : a.residuals = some r) (h2 : ∀ bx ∈ a.boxes, bx.isObjBox = false) :
    (plot_spectrum env a).error ≠ none ∧
    (plot_spectrum env a).resPanel = none ∧
    ∀ (ylimRes : Option (ℚ × ℚ)) (st : RState),
      runResiduals a.boxes ylimRes r st = (st, none, some .valueError) := by
  have hobj : findObjIdx a.boxes = none := findObjIdx_eq_none h2
  have hrun : ∀ (ylimRes : Option (ℚ × ℚ)) (st : RState),
      runResiduals a.boxes ylimRes r st = (st, none, some .valueError) := by
    intro ylimRes st
    unfold runResiduals
    rw [hobj]
  have hbody : ∀ kw0, (plotSpectrumBody env a kw0).error ≠ none ∧
      (plotSpectrumBody env a kw0).resPanel = none := by
    intro kw0
    unfold plotSpectrumBody
    rcases hs : scaleNormalize a.quantity (a.scale.getD ("linear", "linear")).2 a.ylim
      with e | so
    · simp [hs]
    · simp only [hs]
      rcases hb : runBoxes env a.quantity so.scaling a.boxes a.boxes 0
          ⟨kw0, [], 0⟩ with ⟨st1, e1⟩
      cases e1 with
      | some e => simp
      | none =>
        simp only [h1]
        cases hf : a.filters with
        | none => simp only [hf]; rw [hrun a.ylim_res st1]; simp
        | some fl =>
          simp only [hf]
          rw [hrun a.ylim_res { st1 with draws := st1.draws ++ fl.map DrawCall.filterProfile }]
          simp
  refine ⟨?_, ?_, hrun⟩
  · unfold plot_spectrum
    cases hk : a.plot_kwargs with
    | none => exact (hbody []).1
    | some l =>
      dsimp only
      by_cases hl : l.length ≠ a.boxes.length
      · rw [if_pos hl]
        simp
      · rw [if_neg hl]
        exact (hbody l).1
  · unfold plot_spectrum
    cases hk : a.plot_kwargs with
    | none => exact (hbody []).2
    | some l =>
      dsimp only
      by_cases hl : l.length ≠ a.boxes.length
      · rw [if_pos hl]
      · rw [if_neg hl]
        exact (hbody l).2

/-- Witness for C2 at a concrete input. -/
theorem C2_residuals_require_object_witness :
    aC2x.residuals = some ⟨none, none⟩ ∧
    (∀ bx ∈ aC2x.boxes, bx.isObjBox = false) ∧
    ((plot_spectrum envW aC2x).error ≠ none ∧
      (plot_spectrum envW aC2x).resPanel = none ∧
      ∀ (ylimRes : Option (ℚ × ℚ)) (st : RState),
        runResiduals aC2x.boxes ylimRes ⟨none, none⟩ st =
          (st, none, some .valueError)) :=
  ⟨rfl, by simp [aC2x, Box.isObjBox],
   C2_residuals_require_object envW aC2x ⟨none, none⟩ rfl
     (by simp [aC2x, Box.isObjBox])⟩

/-- C3 (amended): outside magnitude mode (quantity `"flux density"` or
`"flux"`), with an explicit positive upper y-limit and a linear
y-scale the shared exponent is `floor(log10(ylim[1]))`, the scaling is
`10 ** exponent` and the y-axis label embeds the exponent; with a
logarithmic scale or no y-limit the scaling is 1 and no exponent
appears; plotted flux-density values equal the raw flux divided by the
scaling (in `"flux"` mode they are additionally wavelength-weighted
first; in `"magnitude"` mode the computation is bypassed entirely, see
the counterexample). -/
theorem C3_scale_normalizer (q : String) (hq : q = "flux density" ∨ q = "flux")
    (a b : ℚ) (hb : 0 < b) :
    (∃ so : ScaleOut, scaleNormalize q "linear" (some (a, b)) = .ok so ∧
      so.exponent = some (Int.log 10 b) ∧
      so.scaling = 10 ^ Int.log 10 b ∧
      so.ylabel = (if q = "flux density" then fluxDensityYlabelExp (Int.log 10 b)
                   else fluxYlabelExp (Int.log 10 b))) ∧
    (∃ so : ScaleOut, scaleNormalize q "log" (some (a, b)) = .ok so ∧
      so.scaling = 1 ∧ so.exponent = none) ∧
    (∃ so : ScaleOut, scaleNormalize q "linear" none = .ok so ∧
      so.scaling = 1 ∧ so.exponent = none) ∧
    (∀ (v s : ℚ), s ≠ 0 → plotVal (FP.fin 1) s (FP.fin v) = FP.fin (v / s)) := by
  have hplot : ∀ (v s : ℚ), s ≠ 0 → plotVal (FP.fin 1) s (FP.fin v) = FP.fin (v / s) := by
    intro v s hs
    simp [plotVal, FP.mul, FP.div, hs]
  rcases hq with hq | hq <;> subst hq
  · have h1 : scaleNormalize "flux density" "linear" (some (a, b)) =
        .ok ⟨10 ^ Int.log 10 b, some (Int.log 10 b), fluxDensityYlabelExp (Int.log 10 b),
          some (a / 10 ^ Int.log 10 b, b / 10 ^ Int.log 10 b), decide (a < 0)⟩ := by
      simp [scaleNormalize, hb]
    have h2 : scaleNormalize "flux density" "log" (some (a, b)) =
        .ok ⟨1, none, fluxDensityYlabelNoExp, some (a / 1, b / 1), decide (a < 0)⟩ := by
      simp [scaleNormalize]
    have h3 : scaleNormalize "flux density" "linear" none =
        .ok ⟨1, none, fluxDensityYlabelNoExp, none, false⟩ := by
      simp [scaleNormalize]
    exact ⟨⟨_, h1, rfl, rfl, by simp⟩, ⟨_, h2, rfl, rfl⟩, ⟨_, h3, rfl, rfl⟩, hplot⟩
  · have h1 : scaleNormalize "flux" "linear" (some (a, b)) =
        .ok ⟨10 ^ Int.log 10 b, some (Int.log 10 b), fluxYlabelExp (Int.log 10 b),
          some (a / 10 ^ Int.log 10 b, b / 10 ^ Int.log 10 b), decide (a < 0)⟩ := by
      simp [scaleNormalize, hb]
    have h2 : scaleNormalize "flux" "log" (some (a, b)) =
        .ok ⟨1, none, fluxYlabelNoExp, some (a / 1, b / 1), decide (a < 0)⟩ := by
      simp [scaleNormalize]
    have h3 : scaleNormalize "flux" "linear" none =
        .ok ⟨1, none, fluxYlabelNoExp, none, false⟩ := by
      simp [scaleNormalize]
    exact ⟨⟨_, h1, rfl, rfl, by simp⟩, ⟨_, h2, rfl, rfl⟩, ⟨_, h3, rfl, rfl⟩, hplot⟩

/-- Witness for C3 at the claim's own instance `ylim = (1e-3, 5e2)`:
exponent 2, scaling 100. -/
theorem C3_scale_normalizer_witness :
    ("flux density" = "flux density" ∨ ("flux density" : String) = "flux") ∧
    (0 : ℚ) < 500 ∧
    (∃ so : ScaleOut, scaleNormalize "flux density" "linear" (some (1/1000, 500)) = .ok so ∧
      so.exponent = some 2 ∧ so.scaling = 100 ∧ so.ylabel = fluxDensityYlabelExp 2) := by
  have hlog : Int.log 10 (500 : ℚ) = 2 := by
    have h2 : Nat.log 10 500 = 2 :=
      Nat.log_eq_of_pow_le_of_lt_pow (by norm_num) (by norm_num)
    rw [show ((500 : ℚ)) = ((500 : ℕ) : ℚ) by norm_num, Int.log_natCast, h2]
    rfl
  have h := (C3_scale_normalizer "flux density" (Or.inl rfl) (1/1000) 500
    (by norm_num)).1
  rcases h with ⟨so, h1, h2, h3, h4⟩
  refine ⟨Or.inl rfl, by norm_num, so, h1, ?_, ?_, ?_⟩
  · rw [h2, hlog]
  · rw [h3, hlog]
    norm_num
  · rw [h4, if_pos rfl, hlog]

/-- C7 (amended): a `SpectrumBox`/`ModelBox` with a *nonempty*
wavelength array never errors on non-finite flux: the branch issues
exactly one line-draw call, with a gap exactly at each `NaN` sample;
`±inf` samples are *not* masked (they are passed through to the draw
call, see the counterexample), and every other sample is drawn as the
raw value divided by the scaling (unchanged when the scaling is 1).
An *empty* wavelength array instead raises `IndexError` at the
`wavelength[0]` element-type test before any draw. -/
theorem C7_nan_masked_gap (env : Env) (scaling : ℚ)
    (wavel flux : List FP) (isModel : Bool) (mn : String) (kj : Option KDict)
    (hne : wavel ≠ []) :
    (∃ label kw, runSpecBox env "flux density" scaling wavel flux isModel mn kj =
        .ok (.specLine wavel (specYs wavel flux false scaling) label kw)) ∧
    (runSpecBox env "flux density" scaling [] flux isModel mn kj =
      .error .indexError) ∧
    ∀ (i : Nat) (w v : FP), wavel[i]? = some w → flux[i]? = some v →
      (specYs wavel flux false scaling)[i]? =
        some (if v.isnan then none else some (v.div (FP.fin scaling))) := by
  refine ⟨?_, rfl, ?_⟩
  · rcases wavel with _ | ⟨a, as⟩
    · exact absurd rfl hne
    · unfold runSpecBox
      rw [if_neg (by simp)]
      cases kj with
      | none => exact ⟨_, _, rfl⟩
      | some m =>
        dsimp only
        by_cases hm : m.isEmpty
        · rw [if_pos hm]
          exact ⟨_, _, rfl⟩
        · rw [if_neg hm]
          exact ⟨_, _, rfl⟩
  · intro i w v hw hv
    unfold specYs
    rw [List.getElem?_map, list_zip_getElem wavel flux i w v hw hv]
    cases v <;> simp [maskNan, FP.isnan, plotVal, FP.one_mul_fp]

/-- Witness for C7 at a concrete input: the `+inf` sample is passed
through unmasked. -/
theorem C7_nan_masked_gap_witness :
    (([FP.fin 1, FP.fin 2] : List FP) ≠ []) ∧
    (([FP.fin 1, FP.fin 2] : List FP)[0]? = some (FP.fin 1)) ∧
    (([FP.pinf, FP.nan] : List FP)[0]? = some FP.pinf) ∧
    (specYs [FP.fin 1, FP.fin 2] [FP.pinf, FP.nan] false 1)[0]? =
      some (if FP.pinf.isnan then none else some (FP.pinf.div (FP.fin 1))) :=
  ⟨by simp, rfl, rfl,
   (C7_nan_masked_gap envW 1 [FP.fin 1, FP.fin 2] [FP.pinf, FP.nan] false "m" none
     (by simp)).2.2 0 (FP.fin 1) FP.pinf rfl rfl⟩

/-- C9 (amended): when a synthetic-photometry point borrows the
companion `ObjectBox` style for its filter, a *dict*-valued style is
used with its `label` and `mfc` keys stripped and a white marker face
forced, preserving the colour; a *list*-valued style (duplicate
measurements) borrows only its first element with just `label`
stripped, so an `mfc` key in that element collides with the explicit
`mfc="white"` keyword and raises `TypeError` instead of drawing. -/
theorem C9_synphot_borrow (w fw : ℚ) (fs : FP) (s : ℚ) (v : FP) :
    (∀ m : KDict, dhas m "xerr" = false → dhas m "yerr" = false →
      ∃ kw : KDict, synphotBorrow w fw fs s v (.d m) =
          .ok (.photPoint w (plotVal fs s v) (fw / 2) none kw) ∧
        dfind kw "mfc" = some (.s (.str "white")) ∧
        dhas kw "label" = false ∧
        dfind kw "color" = dfind m "color") ∧
    (∀ (k0 : KDict) (rest : List KDict), dhas k0 "mfc" = true →
      synphotBorrow w fw fs s v (.l (k0 :: rest)) = .error .typeError) := by
  constructor
  · intro m hx hy
    unfold synphotBorrow
    dsimp only
    set c1 : KDict := if dhas m "label" then derase m "label" else m with hc1
    set c2 : KDict := if dhas c1 "mfc" then derase c1 "mfc" else c1 with hc2
    set c3 : KDict := if dhas c2 "zorder" then c2
      else dset c2 "zorder" (.s (.num 4)) with hc3
    have p1 : ∀ k, k ≠ "label" → dhas c1 k = dhas m k ∧ dfind c1 k = dfind m k := by
      intro k hk
      rw [hc1]
      by_cases hl : dhas m "label"
      · simp [hl, dhas_derase_ne m k _ hk, dfind_derase_ne m k _ hk]
      · simp [hl]
    have p1l : dhas c1 "label" = false := by
      rw [hc1]
      by_cases hl : dhas m "label" <;> simp [hl, dhas_derase_self]
    have p2 : ∀ k, k ≠ "mfc" → dhas c2 k = dhas c1 k ∧ dfind c2 k = dfind c1 k := by
      intro k hk
      rw [hc2]
      by_cases hf : dhas c1 "mfc"
      · simp [hf, dhas_derase_ne c1 k _ hk, dfind_derase_ne c1 k _ hk]
      · simp [hf]
    have p2m : dhas c2 "mfc" = false := by
      rw [hc2]
      by_cases hf : dhas c1 "mfc" <;> simp [hf, dhas_derase_self]
    have p3 : ∀ k, k ≠ "zorder" → dhas c3 k = dhas c2 k ∧ dfind c3 k = dfind c2 k := by
      intro k hk
      rw [hc3]
      by_cases hz : dhas c2 "zorder"
      · simp [hz]
      · simp [hz, dhas_dset_ne c2 k _ _ hk, dfind_dset_ne c2 k _ _ hk]
    have hx3 : dhas c3 "xerr" = false := by
      rw [(p3 _ (by decide)).1, (p2 _ (by decide)).1, (p1 _ (by decide)).1]
      exact hx
    have hy3 : dhas c3 "yerr" = false := by
      rw [(p3 _ (by decide)).1, (p2 _ (by decide)).1, (p1 _ (by decide)).1]
      exact hy
    have hm3 : dhas c3 "mfc" = false := by
      rw [(p3 _ (by decide)).1]
      exact p2m
    have hmerge : mergeKw ["xerr", "yerr", "mfc"] [("mfc", .s (.str "white"))] c3 =
        .ok (("mfc", KVal.s (SVal.str "white")) :: c3) := by
      unfold mergeKw
      simp [hx3, hy3, hm3]
    refine ⟨("mfc", KVal.s (SVal.str "white")) :: c3, ?_, ?_, ?_, ?_⟩
    · rw [hmerge]
    · simp [dfind]
    · have h3l : dhas c3 "label" = false := by
        rw [(p3 _ (by decide)).1, (p2 _ (by decide)).1]
        exact p1l
      show dhas (("mfc", KVal.s (SVal.str "white")) :: c3) "label" = false
      unfold dhas at h3l ⊢
      rw [List.any_cons]
      simp [h3l]
    · have h3c : dfind c3 "color" = dfind m "color" := by
        rw [(p3 _ (by decide)).2, (p2 _ (by decide)).2, (p1 _ (by decide)).2]
      show dfind (("mfc", KVal.s (SVal.str "white")) :: c3) "color" = dfind m "color"
      unfold dfind at h3c ⊢
      rw [List.find?_cons_of_neg _ (by decide)]
      exact h3c
  · intro k0 rest hm
    unfold synphotBorrow
    dsimp only [List.head?]
    set c1 : KDict := if dhas k0 "label" then derase k0 "label" else k0 with hc1
    set c2 : KDict := if dhas c1 "zorder" then c1
      else dset c1 "zorder" (.s (.num 4)) with hc2
    have p1 : dhas c1 "mfc" = true := by
      rw [hc1]
      by_cases hl : dhas k0 "label" <;>
        simp [hl, dhas_derase_ne k0 "mfc" "label" (by decide), hm]
    have p2 : dhas c2 "mfc" = true := by
      rw [hc2]
      by_cases hz : dhas c1 "zorder" <;>
        simp [hz, dhas_dset_ne c1 "mfc" "zorder" (KVal.s (SVal.num 4)) (by decide), p1]
    have hmerge : mergeKw ["xerr", "yerr", "mfc"] [("mfc", .s (.str "white"))] c2 =
        .error .typeError := by
      unfold mergeKw
      simp [p2]
    rw [hmerge]

/-- Witness for C9 at concrete styles: a plain dict borrow succeeds
with a white face, a list whose head carries `mfc` raises. -/
theorem C9_synphot_borrow_witness :
    (dhas [("color", KVal.s (SVal.str "blue"))] "xerr" = false) ∧
    (dhas [("color", KVal.s (SVal.str "blue"))] "yerr" = false) ∧
    (∃ kw : KDict, synphotBorrow 1 1 (FP.fin 1) 1 (FP.fin 2)
        (.d [("color", KVal.s (SVal.str "blue"))]) =
        .ok (.photPoint 1 (plotVal (FP.fin 1) 1 (FP.fin 2)) (1 / 2) none kw) ∧
      dfind kw "mfc" = some (.s (.str "white")) ∧
      dhas kw "label" = false ∧
      dfind kw "color" = dfind [("color", KVal.s (SVal.str "blue"))] "color") ∧
    (dhas [("mfc", KVal.s (SVal.str "red"))] "mfc" = true) ∧
    synphotBorrow 1 1 (FP.fin 1) 1 (FP.fin 2)
      (.l [[("mfc", KVal.s (SVal.str "red"))]]) = .error .typeError :=
  ⟨rfl, rfl, (C9_synphot_borrow 1 1 (FP.fin 1) 1 (FP.fin 2)).1 _ rfl rfl, rfl,
   (C9_synphot_borrow 1 1 (FP.fin 1) 1 (FP.fin 2)).2
     [("mfc", KVal.s (SVal.str "red"))] [] rfl⟩

/-- C6 (amended): an `ObjectBox` filter with N stacked measurements and
an override at that key requires the override to be a *list* — any
non-list raises `ValueError`; element `i` of the list is applied to
measurement `i`, so a list with at least N elements succeeds (surplus
elements are ignored, no exact-length check exists) and a list with
fewer than N elements fails with `IndexError`, not `ValueError`. -/
theorem C6_multi_measurement_override (env : Env) (q : String) (s : ℚ) (j : Nat)
    (item : String) (cols : List (FP × FP)) (st : RState) (m : KDict) (kv : KVal)
    (hj : st.kwargs.get? j = some (some m))
    (hne : m.isEmpty = false)
    (hfind : dfind m item = some kv) :
    ((∀ ls, kv ≠ KVal.l ls) →
      objPhotItem env q s j item (.multi cols) st = (st, some .valueError)) ∧
    (∀ ls, kv = KVal.l ls →
      (∀ (t : Nat) (d : KDict), ls[t]? = some d →
        dhas d "xerr" = false ∧ dhas d "yerr" = false) →
      ((cols.length ≤ ls.length →
        ∃ st2, objPhotItem env q s j item (.multi cols) st = (st2, none) ∧
          st2.draws = st.draws ++ multiDrawsSpec (env.meanWavel item)
            (env.filterFwhm item)
            (if q == "flux" then FP.fin (env.meanWavel item) else FP.fin 1)
            s ls cols 0) ∧
      (ls.length < cols.length →
        ∃ st2, objPhotItem env q s j item (.multi cols) st =
          (st2, some .indexError)))) := by
  have hkeyIn : dhas m item = true := dfind_some_dhas m item kv hfind
  have hbody : objPhotItem env q s j item (.multi cols) st =
      (match kv with
       | KVal.l ks => objPhotMultiLoop (env.meanWavel item) (env.filterFwhm item)
           (if q == "flux" then FP.fin (env.meanWavel item) else FP.fin 1)
           s j item cols ks 0 st
       | _ => (st, some .valueError)) := by
    unfold objPhotItem
    rw [hj]
    dsimp only
    rw [if_neg (show ¬ ((!(!m.isEmpty) || !dhas m item) = true) by
      simp [hne, hkeyIn])]
    rw [show dfind (Option.getD (some m) []) item = some kv from hfind]
    cases kv <;> rfl
  constructor
  · intro hnotl
    rw [hbody]
    cases kv with
    | l ks => exact absurd rfl (hnotl ks)
    | s sv => rfl
    | d dm => rfl
  · intro ls hkv hconf
    subst hkv
    constructor
    · intro hle
      obtain ⟨st2, heq, hdraws⟩ := objPhotMultiLoop_ok (env.meanWavel item)
        (env.filterFwhm item)
        (if q == "flux" then FP.fin (env.meanWavel item) else FP.fin 1)
        s j item ls hconf cols ls 0 st rfl (fun t _ => rfl) (by simpa using hle)
      refine ⟨st2, ?_, hdraws⟩
      rw [hbody]
      exact heq
    · intro hlt
      obtain ⟨st2, heq⟩ := objPhotMultiLoop_short (env.meanWavel item)
        (env.filterFwhm item)
        (if q == "flux" then FP.fin (env.meanWavel item) else FP.fin 1)
        s j item ls hconf cols ls 0 st rfl (fun t _ => rfl)
        (by simpa using hlt) (Nat.zero_le _)
      refine ⟨st2, ?_⟩
      rw [hbody]
      exact heq

/-- Witness for C6 at a concrete 2-measurement filter with a
2-element override list. -/
theorem C6_multi_measurement_override_witness :
    ((⟨[some [("F", KVal.l [[("color", KVal.s (SVal.str "red"))],
        [("color", KVal.s (SVal.str "blue"))]])]], [], 0⟩ : RState).kwargs.get? 0 =
      some (some [("F", KVal.l [[("color", KVal.s (SVal.str "red"))],
        [("color", KVal.s (SVal.str "blue"))]])])) ∧
    (([("F", KVal.l [[("color", KVal.s (SVal.str "red"))],
        [("color", KVal.s (SVal.str "blue"))]])] : KDict).isEmpty = false) ∧
    (dfind [("F", KVal.l [[("color", KVal.s (SVal.str "red"))],
        [("color", KVal.s (SVal.str "blue"))]])] "F" =
      some (KVal.l [[("color", KVal.s (SVal.str "red"))],
        [("color", KVal.s (SVal.str "blue"))]])) ∧
    (((∀ ls, (KVal.l [[("color", KVal.s (SVal.str "red"))],
        [("color", KVal.s (SVal.str "blue"))]]) ≠ KVal.l ls) →
      objPhotItem envW "flux density" 1 0 "F"
        (.multi [(FP.fin 1, FP.fin 1), (FP.fin 2, FP.fin 1)])
        ⟨[some [("F", KVal.l [[("color", KVal.s (SVal.str "red"))],
          [("color", KVal.s (SVal.str "blue"))]])]], [], 0⟩ =
        (⟨[some [("F", KVal.l [[("color", KVal.s (SVal.str "red"))],
          [("color", KVal.s (SVal.str "blue"))]])]], [], 0⟩, some .valueError)) ∧
    (∀ ls, (KVal.l [[("color", KVal.s (SVal.str "red"))],
        [("color", KVal.s (SVal.str "blue"))]]) = KVal.l ls →
      (∀ (t : Nat) (d : KDict), ls[t]? = some d →
        dhas d "xerr" = false ∧ dhas d "yerr" = false) →
      ((([(FP.fin 1, FP.fin 1), (FP.fin 2, FP.fin 1)] :
          List (FP × FP)).length ≤ ls.length →
        ∃ st2, objPhotItem envW "flux density" 1 0 "F"
            (.multi [(FP.fin 1, FP.fin 1), (FP.fin 2, FP.fin 1)])
            ⟨[some [("F", KVal.l [[("color", KVal.s (SVal.str "red"))],
              [("color", KVal.s (SVal.str "blue"))]])]], [], 0⟩ = (st2, none) ∧
          st2.draws = ([] : List DrawCall) ++ multiDrawsSpec (envW.meanWavel "F")
            (envW.filterFwhm "F")
            (if "flux density" == "flux" then FP.fin (envW.meanWavel "F") else FP.fin 1)
            1 ls [(FP.fin 1, FP.fin 1), (FP.fin 2, FP.fin 1)] 0) ∧
      (ls.length < ([(FP.fin 1, FP.fin 1), (FP.fin 2, FP.fin 1)] :
          List (FP × FP)).length →
        ∃ st2, objPhotItem envW "flux density" 1 0 "F"
            (.multi [(FP.fin 1, FP.fin 1), (FP.fin 2, FP.fin 1)])
            ⟨[some [("F", KVal.l [[("color", KVal.s (SVal.str "red"))],
              [("color", KVal.s (SVal.str "blue"))]])]], [], 0⟩ =
          (st2, some .indexError))))) :=
  ⟨rfl, rfl, rfl,
   C6_multi_measurement_override envW "flux density" 1 0 "F"
     [(FP.fin 1, FP.fin 1), (FP.fin 2, FP.fin 1)]
     ⟨[some [("F", KVal.l [[("color", KVal.s (SVal.str "red"))],
       [("color", KVal.s (SVal.str "blue"))]])]], [], 0⟩
     [("F", KVal.l [[("color", KVal.s (SVal.str "red"))],
       [("color", KVal.s (SVal.str "blue"))]])]
     (KVal.l [[("color", KVal.s (SVal.str "red"))],
       [("color", KVal.s (SVal.str "blue"))]])
     rfl rfl rfl⟩

/-- C4 (amended): with no infinite spectral residual value, a
successful residual section produces the panel described by the spec:
the symmetric limit is `ceil(1.1 * max |residual|)` over the finite
residual values, reset to 5 exactly when that ceiling exceeds 10; the
dashed zero line is always drawn; the dotted ±5 lines appear exactly
when the final limit exceeds 5 or an explicit `ylim_res` spans beyond
±5; and with `ylim_res` unset the panel limits are `(-limit, limit)`. -/
theorem C4_residual_panel (boxes : List Box) (ylimRes : Option (ℚ × ℚ))
    (r : ResidualsBox) (st st2 : RState) (panel : ResPanel)
    (hinf : ∀ it ∈ (r.spectrum.getD []), ∀ v ∈ it.2.map (fun p => p.2), v.isinf = false)
    (h : runResiduals boxes ylimRes r st = (st2, some panel, none)) :
    panel.resLim = specResLimit r ∧
    panel.zeroLine = true ∧
    (panel.fiveLines = true ↔ (5 < specResLimit r ∨
      ∃ p : ℚ × ℚ, ylimRes = some p ∧ p.1 < -5 ∧ 5 < p.2)) ∧
    (ylimRes = none → panel.ylimRes = (-(specResLimit r : ℚ), (specResLimit r : ℚ))) := by
  unfold runResiduals at h
  cases ho : findObjIdx boxes with
  | none => rw [ho] at h; simp at h
  | some oi =>
    rw [ho] at h
    dsimp only at h
    rcases hp : resPhotFold oi (r.photometry.getD []) st (FP.fin 0) with ⟨st1, m1, e1⟩
    rw [hp] at h
    cases e1 with
    | some e => simp at h
    | none =>
      have hm1 := resPhotFold_max_ok oi (r.photometry.getD []) st st1 0 m1 hp
      subst hm1
      dsimp only at h
      rcases hsp : resSpecFold oi (r.spectrum.getD []) st1
          (FP.fin ((r.photometry.getD []).foldl
            (fun acc it => finAbsFold (resPhotVals it.2) acc) 0)) with ⟨st2a, m2, e2⟩
      rw [hsp] at h
      cases e2 with
      | some e => simp at h
      | none =>
        have hm2 := resSpecFold_max_ok oi (r.spectrum.getD []) hinf st1 st2a
          ((r.photometry.getD []).foldl (fun acc it => finAbsFold (resPhotVals it.2) acc) 0)
          m2 hsp
        subst hm2
        dsimp only at h
        have hM : ((r.spectrum.getD []).foldl
            (fun acc it => finAbsFold (it.2.map (fun p => p.2)) acc)
            ((r.photometry.getD []).foldl
              (fun acc it => finAbsFold (resPhotVals it.2) acc) 0)) =
            specResMaxFinite r := rfl
        rw [hM] at h
        have hc : ceilPy ((FP.fin (11/10)).mul (FP.fin (specResMaxFinite r))) =
            .ok ⌈(11/10 : ℚ) * specResMaxFinite r⌉ := rfl
        rw [hc] at h
        simp only [Prod.mk.injEq, Option.some.injEq] at h
        have hpanel := h.2.1
        subst hpanel
        have hL : (if 10 < ⌈(11/10 : ℚ) * specResMaxFinite r⌉ then (5 : ℤ)
            else ⌈(11/10 : ℚ) * specResMaxFinite r⌉) = specResLimit r := rfl
        rw [hL]
        refine ⟨rfl, rfl, ?_, ?_⟩
        · cases ylimRes with
          | none => simp
          | some p =>
            rcases p with ⟨a, b⟩
            simp
        · intro hyn
          subst hyn
          rfl

/-- Witness for C4 at a concrete input: spectral residuals
(-3.2, 4.9, 1.0) give limit ceil(1.1 * 4.9) = 6 (not clamped),
five-lines on (6 > 5) and panel limits (-6, 6). -/
theorem C4_residual_panel_witness :
    (∀ it ∈ (rC4w.spectrum.getD []), ∀ v ∈ it.2.map (fun p => p.2), v.isinf = false) ∧
    runResiduals [Box.obj ⟨none, none⟩] none rC4w stC4w =
      (stC4w2, some ⟨6, true, true, (-6, 6)⟩, none) ∧
    ((ResPanel.mk 6 true true (-6, 6)).resLim = specResLimit rC4w ∧
     (ResPanel.mk 6 true true (-6, 6)).zeroLine = true ∧
     ((ResPanel.mk 6 true true (-6, 6)).fiveLines = true ↔ (5 < specResLimit rC4w ∨
       ∃ p : ℚ × ℚ, (none : Option (ℚ × ℚ)) = some p ∧ p.1 < -5 ∧ 5 < p.2)) ∧
     ((none : Option (ℚ × ℚ)) = none → (ResPanel.mk 6 true true (-6, 6)).ylimRes =
       (-(specResLimit rC4w : ℚ), (specResLimit rC4w : ℚ)))) :=
  ⟨by with_unfolding_all decide, by with_unfolding_all rfl,
   C4_residual_panel [Box.obj ⟨none, none⟩] none rC4w stC4w stC4w2
     ⟨6, true, true, (-6, 6)⟩ (by with_unfolding_all decide)
     (by with_unfolding_all rfl)⟩

end SpeciesPlot
